import Mathlib

/-!
Verification of the sonoPleth real-time spatial audio engine core.

This file gives a shallow embedding, in Lean 4, of the parts of the
`spatial_engine/realtimeEngine` sources that the checked properties are
about:

* `Streaming.hpp` — the lock-free double-buffered streaming layer
  (`SourceStream::getSample`, `Streaming::getBlock`, `Streaming::loadScene`,
  the loader/audio buffer state machine, `Streaming::parseChannelIndex`);
* `Pose.hpp` — SLERP direction interpolation (`slerpDir`) and layout-aware
  elevation reshaping (`sanitizeDirForLayout`, `remapClamped`);
* `Spatializer.hpp` — LFE subwoofer routing and the output-remap copy step
  of `renderBlock`;
* `RealtimeBackend.hpp` — the per-block driver `processBlock` (pause path);
* `OutputRemap.hpp` — CSV row filtering (`load`) and `checkIdentity`.

Modelling conventions: audio samples and gains are embedded as rationals
(`ℚ`) — the C++ code computes in IEEE `float`, which the embedding
idealises as exact arithmetic; the direction mathematics of `Pose.hpp`
(trigonometry) is embedded over the reals (`ℝ`).  Machine integers
(`uint64_t`, `int`) become `ℕ` / `ℤ`; none of the modelled quantities can
overflow in the modelled scenarios, and where a C++ cast matters (e.g. the
`unsigned` cast in the subwoofer bounds check) it is modelled explicitly.
Buffers are embedded as functions `ℕ → ℚ` (channel/frame indexed).
-/

namespace SonoPleth

/-! ## String-level model of `Streaming::parseChannelIndex`

`Streaming.hpp` lines 781–804.  C++ strings are embedded as `List Char`.
`std::string::find('.')` is `findDot`, `std::string::substr(0, n)` is
`List.take n`, and `std::stoi` is `stoi?` below. -/

/-- Position of the first occurrence of a character in a string
(`std::string::find`); `none` plays the role of `npos`. -/
def findChar (c : Char) : List Char → Option Nat
  | [] => none
  | d :: rest =>
    if d = c then some 0
    else (findChar c rest).map (· + 1)

/-- Whitespace as classified by `isspace` in the "C" locale, which
`std::stoi` skips before the number. -/
def isSpaceChar (c : Char) : Bool :=
  c = ' ' || c = '\t' || c = '\n' || c = '\x0b' || c = '\x0c' || c = '\r'

/-- Numeric value of a list of decimal digit characters. -/
def digitsVal (ds : List Char) : Nat :=
  ds.foldl (fun acc d => 10 * acc + (d.toNat - '0'.toNat)) 0

/-- Parse a maximal leading run of decimal digits; `none` if there is none. -/
def leadingDigits? (cs : List Char) : Option Nat :=
  let ds := cs.takeWhile Char.isDigit
  if ds.isEmpty then none else some (digitsVal ds)

/-- Model of `std::stoi`: skip leading whitespace, optional sign, then a
maximal run of decimal digits; trailing characters are ignored.  `none`
models the `std::invalid_argument` exception (no digits).  The C++
function additionally throws `std::out_of_range` past `INT_MAX`; the
embedding parses into unbounded `ℤ` instead.  In `parseChannelIndex` both
behaviours give the same result: an overflowing track number exceeds any
`int` channel count, so the range check yields −1 either way. -/
def stoi? (cs : List Char) : Option Int :=
  match cs.dropWhile isSpaceChar with
  | '-' :: rest => (leadingDigits? rest).map (fun n => -(n : Int))
  | '+' :: rest => (leadingDigits? rest).map (fun n => (n : Int))
  | rest => (leadingDigits? rest).map (fun n => (n : Int))

/-- The reserved source key "LFE". -/
def lfeKey : List Char := ['L', 'F', 'E']

/-- Model of `Streaming::parseChannelIndex` (Streaming.hpp 781–804): map a
source key to a 0-based channel index of the multichannel file, or −1. -/
def parseChannelIndex (sourceName : List Char) (numChannels : Int) : Int :=
  if sourceName = lfeKey then
    if numChannels ≥ 4 then 3 else -1
  else
    match findChar '.' sourceName with
    | none => -1
    | some dotPos =>
      if dotPos = 0 then -1
      else
        match stoi? (sourceName.take dotPos) with
        | none => -1
        | some trackNum =>
          let index := trackNum - 1
          if 0 ≤ index ∧ index < numChannels then index else -1

/-- Modelled from the spec's words for claim C10 only (the claim-side
reading, to be compared with `parseChannelIndex`): "the prefix before the
first dot parses as an integer N" read strictly — the whole prefix is an
optionally signed non-empty digit string. -/
def strictInt? (cs : List Char) : Option Int :=
  match cs with
  | '-' :: rest =>
    if rest ≠ [] ∧ rest.all Char.isDigit then some (-(digitsVal rest : Int)) else none
  | '+' :: rest =>
    if rest ≠ [] ∧ rest.all Char.isDigit then some ((digitsVal rest : Int)) else none
  | rest =>
    if rest ≠ [] ∧ rest.all Char.isDigit then some ((digitsVal rest : Int)) else none

lemma findChar_eq_none {c : Char} {l : List Char} (h : c ∉ l) :
    findChar c l = none := by
  induction l with
  | nil => rfl
  | cons d rest ih =>
    have hd : ¬d = c := by
      rintro rfl
      exact h (List.mem_cons_self d rest)
    have hrest : c ∉ rest := fun hmem => h (List.mem_cons_of_mem d hmem)
    simp [findChar, hd, ih hrest]

lemma findChar_append {c : Char} {pre : List Char} (post : List Char)
    (h : c ∉ pre) : findChar c (pre ++ c :: post) = some pre.length := by
  induction pre with
  | nil => simp [findChar]
  | cons d rest ih =>
    have hd : ¬d = c := by
      rintro rfl
      exact h (List.mem_cons_self d rest)
    have hrest : c ∉ rest := fun hmem => h (List.mem_cons_of_mem d hmem)
    simp [findChar, hd, ih hrest]

lemma dotted_ne_lfeKey (pre post : List Char) : pre ++ '.' :: post ≠ lfeKey := by
  intro h
  have hmem : '.' ∈ pre ++ '.' :: post := by simp
  rw [h] at hmem
  simp [lfeKey] at hmem

lemma parseChannelIndex_dotted (pre post : List Char) (numCh : Int)
    (hpre : '.' ∉ pre) (hne : pre ≠ []) :
    parseChannelIndex (pre ++ '.' :: post) numCh =
      match stoi? pre with
      | none => -1
      | some trackNum =>
        if 0 ≤ trackNum - 1 ∧ trackNum - 1 < numCh then trackNum - 1 else -1 := by
  have hlen : ¬pre.length = 0 := by
    simpa [List.length_eq_zero] using hne
  have htake : (pre ++ '.' :: post).take pre.length = pre := List.take_left pre _
  simp only [parseChannelIndex, if_neg (dotted_ne_lfeKey pre post),
    findChar_append post hpre, if_neg hlen, htake]

lemma cons_dot_ne_lfeKey (rest : List Char) : ('.' :: rest) ≠ lfeKey := by
  intro h
  simp only [lfeKey] at h
  injection h with h1 _
  exact absurd h1 (by decide)

/-- Claim C10, counterexample: the key "3x.1" has a dot not in first
position, and its prefix "3x" does not parse as an integer under the
claim's strict reading, so the claim predicts it maps to no channel; but
`Streaming::parseChannelIndex` (std::stoi stops at the first non-digit
and ignores the rest of the prefix) maps it to channel index 2. -/
theorem c10_counterexample :
    strictInt? ['3', 'x'] = none ∧
    parseChannelIndex ['3', 'x', '.', '1'] 3 = 2 ∧ (2 : Int) ≠ -1 := by
  refine ⟨by decide, by decide, by decide⟩

/-- Claim C10 (amended): the multichannel source-key-to-channel mapping
accepts any key with a dot not in first position whose prefix before the
first dot starts, after optional whitespace and sign, with at least one
decimal digit (std::stoi semantics, trailing junk in the prefix ignored):
the parsed integer N maps to channel N−1 when 1 ≤ N ≤ numChannels, and to
no channel (−1) otherwise.  Keys with no dot, a leading dot, or a prefix
on which stoi fails map to no channel, and "LFE" maps to index 3 exactly
when the file has at least 4 channels. -/
theorem c10_amended :
    (∀ (pre post : List Char) (numCh n : Int),
      '.' ∉ pre → pre ≠ [] → stoi? pre = some n → 1 ≤ n → n ≤ numCh →
      parseChannelIndex (pre ++ '.' :: post) numCh = n - 1) ∧
    (∀ (pre post : List Char) (numCh n : Int),
      '.' ∉ pre → pre ≠ [] → stoi? pre = some n → (n < 1 ∨ numCh < n) →
      parseChannelIndex (pre ++ '.' :: post) numCh = -1) ∧
    (∀ (pre post : List Char) (numCh : Int),
      '.' ∉ pre → pre ≠ [] → stoi? pre = none →
      parseChannelIndex (pre ++ '.' :: post) numCh = -1) ∧
    (∀ (rest : List Char) (numCh : Int),
      parseChannelIndex ('.' :: rest) numCh = -1) ∧
    (∀ (name : List Char) (numCh : Int),
      '.' ∉ name → name ≠ lfeKey → parseChannelIndex name numCh = -1) ∧
    (∀ numCh : Int,
      parseChannelIndex lfeKey numCh = if 4 ≤ numCh then 3 else -1) := by
  refine ⟨?_, ?_, ?_, ?_, ?_, ?_⟩
  · intro pre post numCh n hd hne hs h1 h2
    rw [parseChannelIndex_dotted pre post numCh hd hne, hs]
    simp only
    rw [if_pos (by omega)]
  · intro pre post numCh n hd hne hs hrange
    rw [parseChannelIndex_dotted pre post numCh hd hne, hs]
    simp only
    rw [if_neg (by omega)]
  · intro pre post numCh hd hne hs
    rw [parseChannelIndex_dotted pre post numCh hd hne, hs]
  · intro rest numCh
    simp [parseChannelIndex, cons_dot_ne_lfeKey rest, findChar]
  · intro name numCh hd hlfe
    simp [parseChannelIndex, hlfe, findChar_eq_none hd]
  · intro numCh
    simp [parseChannelIndex]

/-- Witness for `c10_amended` at concrete inputs: "2.7" maps to channel
index 1, "11.1" to 10, "q.1" to no channel, and "LFE" to 3 with a
4-channel file. -/
theorem c10_amended_witness :
    parseChannelIndex ['2', '.', '7'] 3 = 1 ∧
    parseChannelIndex ['1', '1', '.', '1'] 24 = 10 ∧
    parseChannelIndex ['q', '.', '1'] 3 = -1 ∧
    parseChannelIndex lfeKey 4 = 3 := by
  refine ⟨?_, ?_, ?_, ?_⟩
  · exact (c10_amended.1 ['2'] ['7'] 3 2 (by decide) (by decide) (by decide)
      (by decide) (by decide)).trans (by decide)
  · exact (c10_amended.1 ['1', '1'] ['1'] 24 11 (by decide) (by decide)
      (by decide) (by decide) (by decide)).trans (by decide)
  · exact c10_amended.2.2.1 ['q'] ['1'] 3 (by decide) (by decide) (by decide)
  · exact (c10_amended.2.2.2.2.2 4).trans (by decide)

/-! ## Streaming: double-buffered per-source streams

`Streaming.hpp`.  Sample values are rationals (exact model of `float`
data being copied around — `getSample`/`getBlock` only move samples, they
do no arithmetic on them).  A buffer's contents are a function `ℕ → ℚ`.
`getSample` is `const` in C++ but flips the atomic buffer state on a
switch, so its embedding returns the value together with the updated
stream. -/

/-- Buffer slot state machine (Streaming.hpp 76–81). -/
inductive StreamBufferState : Type
  | EMPTY
  | LOADING
  | READY
  | PLAYING
deriving DecidableEq, Repr, Fintype

/-- Per-source stream state (Streaming.hpp `struct SourceStream`): two
buffers with their states, chunk start frames and valid frame counts,
and the active-buffer selector (−1 = none active yet).  `fileData` models
the samples behind the open `SNDFILE*` handle. -/
structure SourceStream where
  bufferA : ℕ → ℚ
  bufferB : ℕ → ℚ
  stateA : StreamBufferState
  stateB : StreamBufferState
  chunkStartA : ℕ
  chunkStartB : ℕ
  validFramesA : ℕ
  validFramesB : ℕ
  activeBuffer : Int
  totalFrames : ℕ
  sampleRate : ℕ
  chunkFrames : ℕ
  lfe : Bool
  fileData : ℕ → ℚ

/-- Contents of the active buffer (the ternary `(active == 0) ? bufferA :
bufferB` used by `getSample` and `getBlock`). -/
def SourceStream.activeBuf (s : SourceStream) : ℕ → ℚ :=
  if s.activeBuffer = 0 then s.bufferA else s.bufferB

/-- Chunk start of the active buffer. -/
def SourceStream.activeStart (s : SourceStream) : ℕ :=
  if s.activeBuffer = 0 then s.chunkStartA else s.chunkStartB

/-- Valid frame count of the active buffer. -/
def SourceStream.activeValid (s : SourceStream) : ℕ :=
  if s.activeBuffer = 0 then s.validFramesA else s.validFramesB

/-- Index of the inactive buffer, `other = 1 - active`. -/
def SourceStream.otherIdx (s : SourceStream) : Int := 1 - s.activeBuffer

/-- Contents of the inactive buffer. -/
def SourceStream.otherBuf (s : SourceStream) : ℕ → ℚ :=
  if s.otherIdx = 0 then s.bufferA else s.bufferB

/-- State of the inactive buffer. -/
def SourceStream.otherState (s : SourceStream) : StreamBufferState :=
  if s.otherIdx = 0 then s.stateA else s.stateB

/-- Chunk start of the inactive buffer. -/
def SourceStream.otherStart (s : SourceStream) : ℕ :=
  if s.otherIdx = 0 then s.chunkStartA else s.chunkStartB

/-- Valid frame count of the inactive buffer. -/
def SourceStream.otherValid (s : SourceStream) : ℕ :=
  if s.otherIdx = 0 then s.validFramesA else s.validFramesB

/-- The three stores of the audio thread's buffer switch (Streaming.hpp
325–330): previously active buffer to EMPTY, other buffer to PLAYING,
`activeBuffer` to the other index. -/
def SourceStream.switchToOther (s : SourceStream) : SourceStream :=
  if s.activeBuffer = 0 then
    { s with stateA := .EMPTY, stateB := .PLAYING, activeBuffer := s.otherIdx }
  else
    { s with stateB := .EMPTY, stateA := .PLAYING, activeBuffer := s.otherIdx }

/-- Model of `SourceStream::getSample` (Streaming.hpp 288–337): value at a
global frame, plus the stream after the possible buffer switch. -/
def SourceStream.getSample (s : SourceStream) (globalFrame : ℕ) :
    ℚ × SourceStream :=
  if s.activeBuffer < 0 then (0, s)
  else if s.activeStart ≤ globalFrame ∧
      globalFrame < s.activeStart + s.activeValid then
    (s.activeBuf (globalFrame - s.activeStart), s)
  else if s.otherState = StreamBufferState.READY ∧
      s.otherStart ≤ globalFrame ∧
      globalFrame < s.otherStart + s.otherValid then
    (s.otherBuf (globalFrame - s.otherStart), s.switchToOther)
  else
    (0, s)

/-- The per-sample fallback loop of `Streaming::getBlock` (lines 606–608):
`numFrames` successive `getSample` calls starting at `startFrame`,
threading the stream state (each call may switch buffers). -/
def SourceStream.readSamples (s : SourceStream) (startFrame : ℕ) :
    ℕ → List ℚ × SourceStream
  | 0 => ([], s)
  | Nat.succ m =>
    let r := s.getSample startFrame
    let rest := r.2.readSamples (startFrame + 1) m
    (r.1 :: rest.1, rest.2)

/-- The stream map `Streaming::mStreams`: source key to stream. -/
def StreamMap : Type := String → Option SourceStream

/-- Model of `Streaming::getBlock` (Streaming.hpp 570–609): zero fill when
the key is unknown or no buffer is active; one-shot copy when the active
buffer fully contains the requested range; per-sample fallback otherwise. -/
def getBlock (streams : StreamMap) (sourceName : String) (startFrame : ℕ)
    (numFrames : ℕ) : List ℚ :=
  match streams sourceName with
  | none => List.replicate numFrames 0
  | some src =>
    if src.activeBuffer < 0 then List.replicate numFrames 0
    else
      let endFrame := startFrame + numFrames
      if src.activeStart ≤ startFrame ∧
          endFrame ≤ src.activeStart + src.activeValid then
        (List.range numFrames).map
          (fun i => src.activeBuf (startFrame - src.activeStart + i))
      else
        (src.readSamples startFrame numFrames).1

/-- Engine telemetry (RealtimeTypes.hpp `struct EngineState`), all atomics
written by the audio thread. -/
structure EngineState where
  frameCounter : ℕ
  playbackTimeSec : ℚ
  cpuLoad : ℚ
  xrunCount : ℕ
  numSources : ℕ
  numSpeakers : ℕ
  sceneDuration : ℚ
deriving DecidableEq

/-- Effect of one `Streaming::getBlock` call on the telemetry state: the
method body (Streaming.hpp 570–609) contains no access to `mState`, so the
`EngineState` passes through unchanged next to the produced block. -/
def getBlockWithState (streams : StreamMap) (st : EngineState)
    (sourceName : String) (startFrame : ℕ) (numFrames : ℕ) :
    List ℚ × EngineState :=
  (getBlock streams sourceName startFrame numFrames, st)

lemma readSamples_length (s : SourceStream) (startFrame n : ℕ) :
    (s.readSamples startFrame n).1.length = n := by
  induction n generalizing s startFrame with
  | zero => rfl
  | succ m ih => simp [SourceStream.readSamples, ih]

lemma getSample_in_active (s : SourceStream) (g : ℕ)
    (h0 : ¬s.activeBuffer < 0) (h1 : s.activeStart ≤ g)
    (h2 : g < s.activeStart + s.activeValid) :
    s.getSample g = (s.activeBuf (g - s.activeStart), s) := by
  simp [SourceStream.getSample, h0, h1, h2]

lemma readSamples_in_active (n : ℕ) :
    ∀ (s : SourceStream) (start : ℕ), ¬s.activeBuffer < 0 →
    s.activeStart ≤ start → start + n ≤ s.activeStart + s.activeValid →
    s.readSamples start n =
      ((List.range n).map (fun i => s.activeBuf (start - s.activeStart + i)), s) := by
  induction n with
  | zero => intro s start _ _ _; simp [SourceStream.readSamples]
  | succ m ih =>
    intro s start h0 h1 h2
    have hstep : s.getSample start = (s.activeBuf (start - s.activeStart), s) :=
      getSample_in_active s start h0 h1 (by omega)
    have ihm := ih s (start + 1) h0 (by omega) (by omega)
    have hidx : ∀ i : ℕ, start + 1 - s.activeStart + i = start - s.activeStart + (i + 1) := by
      intro i; omega
    simp only [SourceStream.readSamples, hstep, ihm, List.range_succ_eq_map,
      List.map_cons, List.map_map, Prod.mk.injEq, Function.comp]
    constructor
    · congr 1
      apply List.map_congr_left
      intro a _
      simp only [Function.comp_apply, Nat.succ_eq_add_one, hidx]
    · trivial

lemma getBlock_none_eq (streams : StreamMap) (name : String) (start n : ℕ)
    (h : streams name = none) :
    getBlock streams name start n = List.replicate n 0 := by
  rw [getBlock, h]

lemma getBlock_inactive_eq (streams : StreamMap) (src : SourceStream)
    (name : String) (start n : ℕ) (h : streams name = some src)
    (h0 : src.activeBuffer < 0) :
    getBlock streams name start n = List.replicate n 0 := by
  rw [getBlock, h]
  simp [h0]

/-- Claim C1: `Streaming::getBlock` always produces exactly `numFrames`
samples.  When the key is unknown or no buffer is active yet, every
produced sample is zero; when the active buffer fully contains the range
`[startFrame, startFrame+numFrames)`, the block is the one-shot copy of
that slice (which coincides with what the per-sample path would read);
otherwise the block is the per-sample `getSample` loop. -/
theorem c1_getBlock_block_shape :
    (∀ (streams : StreamMap) name start n,
      (getBlock streams name start n).length = n) ∧
    (∀ (streams : StreamMap) name start n, streams name = none →
      ∀ x ∈ getBlock streams name start n, x = 0) ∧
    (∀ (streams : StreamMap) src name start n, streams name = some src →
      src.activeBuffer < 0 → ∀ x ∈ getBlock streams name start n, x = 0) ∧
    (∀ (streams : StreamMap) src name start n, streams name = some src →
      ¬src.activeBuffer < 0 → src.activeStart ≤ start →
      start + n ≤ src.activeStart + src.activeValid →
      getBlock streams name start n =
        (List.range n).map (fun i => src.activeBuf (start - src.activeStart + i)) ∧
      getBlock streams name start n = (src.readSamples start n).1) ∧
    (∀ (streams : StreamMap) src name start n, streams name = some src →
      ¬src.activeBuffer < 0 →
      ¬(src.activeStart ≤ start ∧ start + n ≤ src.activeStart + src.activeValid) →
      getBlock streams name start n = (src.readSamples start n).1) := by
  refine ⟨?_, ?_, ?_, ?_, ?_⟩
  · intro streams name start n
    unfold getBlock
    cases hs : streams name with
    | none => simp
    | some src =>
      by_cases h0 : src.activeBuffer < 0
      · simp [h0]
      · by_cases hh : src.activeStart ≤ start ∧
          start + n ≤ src.activeStart + src.activeValid
        · simp [h0, hh]
        · simp [h0, hh, readSamples_length]
  · intro streams name start n hnone x hx
    rw [getBlock_none_eq streams name start n hnone] at hx
    exact List.eq_of_mem_replicate hx
  · intro streams src name start n hsome h0 x hx
    rw [getBlock_inactive_eq streams src name start n hsome h0] at hx
    exact List.eq_of_mem_replicate hx
  · intro streams src name start n hsome h0 h1 h2
    have hcopy : getBlock streams name start n =
        (List.range n).map (fun i => src.activeBuf (start - src.activeStart + i)) := by
      rw [getBlock, hsome]
      simp [h0, h1, h2]
    refine ⟨hcopy, ?_⟩
    rw [hcopy, readSamples_in_active n src start h0 h1 h2]
  · intro streams src name start n hsome h0 hmiss
    rw [getBlock, hsome]
    simp [h0, hmiss]

/-- A concrete loaded stream used by the witnesses: buffer A active and
playing, holding frames 0–7 of a ramp signal. -/
def demoStream : SourceStream where
  bufferA := fun i => (i : ℚ)
  bufferB := fun _ => 0
  stateA := .PLAYING
  stateB := .EMPTY
  chunkStartA := 0
  chunkStartB := 0
  validFramesA := 8
  validFramesB := 0
  activeBuffer := 0
  totalFrames := 8
  sampleRate := 48000
  chunkFrames := 8
  lfe := false
  fileData := fun i => (i : ℚ)

/-- A concrete stream map with the single source key "1.1". -/
def demoStreams : StreamMap :=
  fun name => if name = "1.1" then some demoStream else none

/-- Witness for `c1_getBlock_block_shape` at concrete inputs: a 3-frame
block inside the active buffer has length 3 and is the one-shot copy, and
a block for an unknown key is all zeros. -/
theorem c1_getBlock_block_shape_witness :
    (getBlock demoStreams "1.1" 2 3).length = 3 ∧
    getBlock demoStreams "1.1" 2 3 =
      (List.range 3).map
        (fun i => demoStream.activeBuf (2 - demoStream.activeStart + i)) ∧
    (∀ x ∈ getBlock demoStreams "nope" 0 4, x = 0) := by
  refine ⟨c1_getBlock_block_shape.1 demoStreams "1.1" 2 3, ?_, ?_⟩
  · exact (c1_getBlock_block_shape.2.2.2.1 demoStreams demoStream "1.1" 2 3 rfl
      (by decide) (by decide) (by decide)).1
  · exact c1_getBlock_block_shape.2.1 demoStreams "nope" 0 4 rfl

/-- The telemetry state at engine start: every `EngineState` atomic is
zero-initialised (RealtimeTypes.hpp 200–213). -/
def initialEngineState : EngineState where
  frameCounter := 0
  playbackTimeSec := 0
  cpuLoad := 0
  xrunCount := 0
  numSources := 0
  numSpeakers := 0
  sceneDuration := 0

/-- Claim C2, counterexample: a `getBlock` call for a nonexistent source
key fills the output with zeros (an underrun per the claim), yet
`xrunCount` stays 0 instead of being incremented — no code path in
`Streaming.hpp` ever writes `EngineState::xrunCount`. -/
theorem c2_counterexample :
    (getBlockWithState (fun _ => none) initialEngineState "1.1" 0 4).1 =
      List.replicate 4 0 ∧
    (getBlockWithState (fun _ => none) initialEngineState "1.1" 0 4).2.xrunCount
      = 0 ∧
    (0 : ℕ) ≠ 0 + 1 :=
  ⟨rfl, rfl, by decide⟩

/-- Claim C2 (amended): whenever the audio thread requests samples that no
loaded buffer holds — unknown key, no buffer active yet, or neither buffer
containing the requested frame — the output is zero, and the telemetry
state (in particular `xrun_count`) is left completely unchanged: the
counter is declared but never incremented by any code path. -/
theorem c2_underrun_zero_no_xrun :
    (∀ (streams : StreamMap) (st : EngineState) name start n,
      (getBlockWithState streams st name start n).2 = st) ∧
    (∀ (streams : StreamMap) (st : EngineState) name start n,
      streams name = none →
      ∀ x ∈ (getBlockWithState streams st name start n).1, x = 0) ∧
    (∀ (streams : StreamMap) (st : EngineState) src name start n,
      streams name = some src → src.activeBuffer < 0 →
      ∀ x ∈ (getBlockWithState streams st name start n).1, x = 0) ∧
    (∀ (s : SourceStream) (g : ℕ),
      ¬(s.activeStart ≤ g ∧ g < s.activeStart + s.activeValid) →
      ¬(s.otherState = StreamBufferState.READY ∧ s.otherStart ≤ g ∧
          g < s.otherStart + s.otherValid) →
      (s.getSample g).1 = 0 ∧ (s.getSample g).2 = s) := by
  refine ⟨?_, ?_, ?_, ?_⟩
  · intro streams st name start n
    rfl
  · intro streams st name start n hnone x hx
    rw [getBlockWithState] at hx
    rw [getBlock_none_eq streams name start n hnone] at hx
    exact List.eq_of_mem_replicate hx
  · intro streams st src name start n hsome h0 x hx
    rw [getBlockWithState] at hx
    rw [getBlock_inactive_eq streams src name start n hsome h0] at hx
    exact List.eq_of_mem_replicate hx
  · intro s g h1 h2
    rw [SourceStream.getSample]
    by_cases h0 : s.activeBuffer < 0
    · simp [h0]
    · simp [h0, h1, h2]

/-- Witness for `c2_underrun_zero_no_xrun` at concrete inputs. -/
theorem c2_underrun_zero_no_xrun_witness :
    (getBlockWithState demoStreams initialEngineState "1.1" 2 3).2 =
      initialEngineState ∧
    (∀ x ∈ (getBlockWithState demoStreams initialEngineState "nope" 0 4).1,
      x = 0) :=
  ⟨c2_underrun_zero_no_xrun.1 demoStreams initialEngineState "1.1" 2 3,
   c2_underrun_zero_no_xrun.2.1 demoStreams initialEngineState "nope" 0 4 rfl⟩

/-! ## Scene loading (`Streaming::loadScene`, `SourceStream::open`)

The filesystem handed to `loadScene` is a map from source name to
`Option (Option WavFileInfo)`: `none` models `fs::exists` returning
false, `some none` models an existing file that `sf_open` fails to open,
and `some (some info)` an openable WAV with the given header and data. -/

/-- Header and contents of a WAV file as seen through libsndfile. -/
structure WavFileInfo where
  channels : ℕ
  samplerate : ℕ
  frames : ℕ
  data : ℕ → ℚ

/-- The sources folder: source name to the file behind `<name>.wav`. -/
def WavFolder : Type := String → Option (Option WavFileInfo)

/-- Model of `SourceStream::open` (Streaming.hpp 136–179) on an already
`sf_open`-ed file: fails (`none`) if the file is not mono or its sample
rate disagrees with the engine; otherwise produces the fresh stream with
pre-allocated zeroed buffers and no active buffer. -/
def SourceStream.openStream (sourceName : String) (chunkSize expectedSR : ℕ)
    (info : WavFileInfo) : Option SourceStream :=
  if info.channels ≠ 1 then none
  else if info.samplerate ≠ expectedSR then none
  else some
    { bufferA := fun _ => 0
      bufferB := fun _ => 0
      stateA := .EMPTY
      stateB := .EMPTY
      chunkStartA := 0
      chunkStartB := 0
      validFramesA := 0
      validFramesB := 0
      activeBuffer := -1
      totalFrames := info.frames
      sampleRate := info.samplerate
      chunkFrames := chunkSize
      lfe := sourceName = "LFE"
      fileData := info.data }

/-- Model of `SourceStream::loadFirstChunk` (Streaming.hpp 205–239):
synchronously read `min(chunkFrames, totalFrames)` frames into buffer A
(`sf_readf_float` on an intact file delivers exactly that many), fail if
nothing could be read, zero-pad the rest, then activate buffer A as
PLAYING. -/
def SourceStream.loadFirstChunk (s : SourceStream) : Option SourceStream :=
  if min s.chunkFrames s.totalFrames = 0 then none
  else some
    { s with
      bufferA := fun i => if i < min s.chunkFrames s.totalFrames then s.fileData i else 0
      chunkStartA := 0
      validFramesA := min s.chunkFrames s.totalFrames
      stateA := .PLAYING
      activeBuffer := 0 }

/-- The per-source body of the `Streaming::loadScene` loop (Streaming.hpp
422–454): missing file, open failure, mono/sample-rate mismatch and
first-chunk failure each skip the source with a warning; a fully loaded
source is kept. -/
def loadSceneStreams (folder : WavFolder) (expectedSR chunkSize : ℕ) :
    List String → List (String × SourceStream)
  | [] => []
  | name :: rest =>
    let tail := loadSceneStreams folder expectedSR chunkSize rest
    match folder name with
    | none => tail
    | some none => tail
    | some (some info) =>
      match SourceStream.openStream name chunkSize expectedSR info with
      | none => tail
      | some s =>
        match s.loadFirstChunk with
        | none => tail
        | some s2 => (name, s2) :: tail

/-- Model of `Streaming::loadScene` (Streaming.hpp 418–463): load each
scene source, store the source count into the telemetry state, and
return `!mStreams.empty()`. -/
def loadScene (folder : WavFolder) (expectedSR chunkSize : ℕ)
    (sources : List String) (st : EngineState) :
    Bool × List (String × SourceStream) × EngineState :=
  let streams := loadSceneStreams folder expectedSR chunkSize sources
  (!streams.isEmpty, streams, { st with numSources := streams.length })

/-- A source for which the whole open-and-preload sequence succeeds: its
file exists, can be opened, is mono at the engine rate, and delivers at
least one frame into the first chunk (Boolean form, used in the filter
characterisation). -/
def sourceLoadsB (folder : WavFolder) (expectedSR chunkSize : ℕ)
    (name : String) : Bool :=
  match folder name with
  | some (some info) =>
    decide (info.channels = 1) && decide (info.samplerate = expectedSR) &&
      decide (0 < min chunkSize info.frames)
  | _ => false

/-- A source loads successfully iff its file exists, opens, is mono at
the engine sample rate and contributes at least one frame. -/
lemma sourceLoadsB_iff (folder : WavFolder) (expectedSR chunkSize : ℕ)
    (name : String) :
    sourceLoadsB folder expectedSR chunkSize name = true ↔
      ∃ info, folder name = some (some info) ∧ info.channels = 1 ∧
        info.samplerate = expectedSR ∧ 0 < min chunkSize info.frames := by
  unfold sourceLoadsB
  cases heq : folder name with
  | none => simp [heq]
  | some o =>
    cases o with
    | none => simp
    | some info =>
      simp only [Bool.and_eq_true, decide_eq_true_eq]
      constructor
      · rintro ⟨⟨h1, h2⟩, h3⟩
        exact ⟨info, rfl, h1, h2, h3⟩
      · rintro ⟨info2, heq2, h1, h2, h3⟩
        cases Option.some.inj (Option.some.inj heq2)
        exact ⟨⟨h1, h2⟩, h3⟩

lemma loadSceneStreams_keys (folder : WavFolder) (expectedSR chunkSize : ℕ)
    (sources : List String) :
    (loadSceneStreams folder expectedSR chunkSize sources).map Prod.fst =
      sources.filter (sourceLoadsB folder expectedSR chunkSize) := by
  induction sources with
  | nil => rfl
  | cons name rest ih =>
    rw [loadSceneStreams]
    cases heq : folder name with
    | none =>
      rw [List.filter_cons_of_neg (by simp [sourceLoadsB, heq])]
      exact ih
    | some o =>
      cases o with
      | none =>
        rw [List.filter_cons_of_neg (by simp [sourceLoadsB, heq])]
        exact ih
      | some info =>
        simp only [SourceStream.openStream]
        by_cases h1 : info.channels ≠ 1
        · rw [if_pos h1,
            List.filter_cons_of_neg (by simp [sourceLoadsB, heq]; omega)]
          exact ih
        · rw [if_neg h1]
          by_cases h2 : info.samplerate ≠ expectedSR
          · rw [if_pos h2,
              List.filter_cons_of_neg (by simp [sourceLoadsB, heq]; omega)]
            exact ih
          · rw [if_neg h2]
            simp only [SourceStream.loadFirstChunk]
            by_cases h3 : min chunkSize info.frames = 0
            · rw [if_pos h3,
                List.filter_cons_of_neg (by simp [sourceLoadsB, heq]; omega)]
              exact ih
            · rw [if_neg h3,
                List.filter_cons_of_pos (by simp [sourceLoadsB, heq]; omega)]
              simp only [List.map_cons]
              rw [ih]

/-- A well-formed mono 48 kHz file with 100 frames of constant 1. -/
def demoGoodFile : WavFileInfo where
  channels := 1
  samplerate := 48000
  frames := 100
  data := fun _ => 1

/-- A sources folder in which "good.wav" opens fine while "bad.wav"
exists but cannot be opened by libsndfile. -/
def demoFolder : WavFolder := fun name =>
  if name = "good" then some (some demoGoodFile)
  else if name = "bad" then some none
  else none

/-- Claim C3, counterexample: the scene lists sources "bad" and "good";
"bad"'s WAV file cannot be opened, yet `Streaming::loadScene` returns
success (it merely skips the failing source and keeps "good"), so an open
failure does not fail the mono-scene load. -/
theorem c3_counterexample :
    demoFolder "bad" = some none ∧
    (loadScene demoFolder 48000 8 ["bad", "good"] initialEngineState).1 = true ∧
    ((loadScene demoFolder 48000 8 ["bad", "good"]
        initialEngineState).2.1.map Prod.fst = ["good"]) :=
  ⟨rfl, rfl, rfl⟩

/-- Claim C3 (amended): a file open failure at load time (like a channel
count or sample rate disagreeing with the engine, or an unreadable first
chunk) causes that source to be skipped, not a load failure;
`loadScene` succeeds iff at least one scene source has an existing,
openable, mono file at the engine sample rate with at least one frame,
and exactly those sources are kept. -/
theorem c3_load_failure_skips :
    ∀ (folder : WavFolder) (sr cf : ℕ) (sources : List String)
      (st : EngineState),
      ((loadScene folder sr cf sources st).1 = true ↔
        ∃ name ∈ sources, ∃ info, folder name = some (some info) ∧
          info.channels = 1 ∧ info.samplerate = sr ∧ 0 < min cf info.frames) ∧
      (∀ name, name ∈ (loadScene folder sr cf sources st).2.1.map Prod.fst ↔
        (name ∈ sources ∧ sourceLoadsB folder sr cf name = true)) := by
  intro folder sr cf sources st
  have hkeys := loadSceneStreams_keys folder sr cf sources
  constructor
  · simp only [loadScene]
    have hne : (!(loadSceneStreams folder sr cf sources).isEmpty) = true ↔
        loadSceneStreams folder sr cf sources ≠ [] := by
      cases loadSceneStreams folder sr cf sources <;> simp
    rw [hne]
    have hmap : loadSceneStreams folder sr cf sources ≠ [] ↔
        (loadSceneStreams folder sr cf sources).map Prod.fst ≠ [] := by
      simp
    rw [hmap, hkeys, Ne, List.filter_eq_nil_iff]
    push_neg
    constructor
    · rintro ⟨name, hmem, hp⟩
      exact ⟨name, hmem, (sourceLoadsB_iff folder sr cf name).mp hp⟩
    · rintro ⟨name, hmem, hinfo⟩
      exact ⟨name, hmem, (sourceLoadsB_iff folder sr cf name).mpr hinfo⟩
  · intro name
    simp only [loadScene]
    rw [hkeys, List.mem_filter]

/-- Witness for `c3_load_failure_skips` at the concrete folder: the load
succeeds because "good" loads, even though "bad" cannot be opened. -/
theorem c3_load_failure_skips_witness :
    (loadScene demoFolder 48000 8 ["bad", "good"] initialEngineState).1 = true ∧
    ("good" ∈ (loadScene demoFolder 48000 8 ["bad", "good"]
        initialEngineState).2.1.map Prod.fst) :=
  ⟨(c3_load_failure_skips demoFolder 48000 8 ["bad", "good"]
      initialEngineState).1.mpr
    ⟨"good", by simp, demoGoodFile, rfl, rfl, rfl, by decide⟩,
   ((c3_load_failure_skips demoFolder 48000 8 ["bad", "good"]
      initialEngineState).2 "good").mpr ⟨by simp, by decide⟩⟩

/-! ## OutputRemap: CSV row filtering, identity detection, copy step

`OutputRemap.hpp`.  The CSV file itself is modelled after the header has
been located: `rows` is the list of data rows, each being `none` when the
row is malformed (too few columns, or `std::stoi` throws on a field) and
`some (lay, dev)` when both fields parsed.  The earlier failure returns
of `load` (unopenable file, missing header) leave `identity = true` with
no entries, exactly like the no-valid-rows outcome modelled here. -/

/-- One `(layout, device)` pair from the CSV (OutputRemap.hpp 54–57). -/
structure RemapEntry where
  layout : ℤ
  device : ℤ
deriving DecidableEq, Repr

/-- The row-filtering loop of `OutputRemap::load` (OutputRemap.hpp
123–156): malformed rows and out-of-range rows are dropped, the rest are
kept in order. -/
def keptEntries (renderChannels deviceChannels : ℕ)
    (rows : List (Option (ℤ × ℤ))) : List RemapEntry :=
  rows.filterMap (fun row =>
    match row with
    | none => none
    | some (lay, dev) =>
      if lay < 0 ∨ (renderChannels : ℤ) ≤ lay then none
      else if dev < 0 ∨ (deviceChannels : ℤ) ≤ dev then none
      else some ⟨lay, dev⟩)

/-- The per-entry loop of `OutputRemap::checkIdentity` (OutputRemap.hpp
214–219) with its coverage vector: fails (`none`) on a non-diagonal entry
or a duplicate, otherwise returns the cover flags with each entry's
layout channel marked.  The C++ `std::vector<bool> covered` is embedded
as a function `ℕ → Bool` (all indexing stays in range because `load`
range-checked every entry). -/
def checkIdentityGo (covered : ℕ → Bool) :
    List RemapEntry → Option (ℕ → Bool)
  | [] => some covered
  | e :: rest =>
    if e.layout ≠ e.device then none
    else if covered e.layout.toNat then none
    else checkIdentityGo (Function.update covered e.layout.toNat true) rest

/-- Model of `OutputRemap::checkIdentity` (OutputRemap.hpp 211–224). -/
def checkIdentity (entries : List RemapEntry) (renderChannels : ℕ) : Bool :=
  if entries.length ≠ renderChannels then false
  else
    match checkIdentityGo (fun _ => false) entries with
    | none => false
    | some covered => (List.range renderChannels).all (fun i => covered i)

/-- Model of `OutputRemap::load` after the header has been located
(OutputRemap.hpp 119–179): returns `(identity flag, kept entries,
return value)`.  With no valid rows the flag falls back to `true` with no
entries and `load` reports failure; otherwise the flag is
`checkIdentity`. -/
def outputRemapLoad (renderChannels deviceChannels : ℕ)
    (rows : List (Option (ℤ × ℤ))) : Bool × List RemapEntry × Bool :=
  let entries := keptEntries renderChannels deviceChannels rows
  if entries.isEmpty then (true, [], false)
  else (checkIdentity entries renderChannels, entries, true)

lemma checkIdentityGo_spec (entries : List RemapEntry) :
    ∀ covered : ℕ → Bool,
    (match checkIdentityGo covered entries with
     | none =>
       ¬((∀ e ∈ entries, e.layout = e.device) ∧
          (entries.map (fun e => e.layout.toNat)).Nodup ∧
          (∀ e ∈ entries, covered e.layout.toNat = false))
     | some final =>
       ((∀ e ∈ entries, e.layout = e.device) ∧
         (entries.map (fun e => e.layout.toNat)).Nodup ∧
         (∀ e ∈ entries, covered e.layout.toNat = false)) ∧
       ∀ i, final i =
         (covered i || decide (∃ e ∈ entries, e.layout.toNat = i))) := by
  induction entries with
  | nil =>
    intro covered
    simp [checkIdentityGo]
  | cons e rest ih =>
    intro covered
    rw [checkIdentityGo]
    by_cases hne : e.layout ≠ e.device
    · rw [if_pos hne]
      rintro ⟨hpt, -, -⟩
      exact hne (hpt e (List.mem_cons_self e rest))
    · rw [if_neg hne]
      push_neg at hne
      by_cases hcov : covered e.layout.toNat
      · rw [if_pos hcov]
        rintro ⟨-, -, hcv⟩
        rw [hcv e (List.mem_cons_self e rest)] at hcov
        exact Bool.false_ne_true hcov
      · rw [if_neg hcov]
        have ihc := ih (Function.update covered e.layout.toNat true)
        cases hgo : checkIdentityGo
            (Function.update covered e.layout.toNat true) rest with
        | none =>
          rw [hgo] at ihc
          rintro ⟨hpt, hnd, hcv⟩
          apply ihc
          have hhead : e.layout.toNat ∉ rest.map (fun x => x.layout.toNat) := by
            have := hnd
            rw [List.map_cons, List.nodup_cons] at this
            exact this.1
          refine ⟨fun x hx => hpt x (List.mem_cons_of_mem e hx), ?_, ?_⟩
          · have := hnd
            rw [List.map_cons, List.nodup_cons] at this
            exact this.2
          · intro x hx
            have hxe : x.layout.toNat ≠ e.layout.toNat := by
              intro hxeq
              exact hhead (hxeq ▸ List.mem_map_of_mem _ hx)
            rw [Function.update_noteq hxe]
            exact hcv x (List.mem_cons_of_mem e hx)
        | some final =>
          rw [hgo] at ihc
          obtain ⟨⟨hpt, hnd, hcv⟩, hfin⟩ := ihc
          have hxe_of_mem : ∀ x ∈ rest, x.layout.toNat ≠ e.layout.toNat := by
            intro x hx hxeq
            have hx2 := hcv x hx
            rw [hxeq, Function.update_same] at hx2
            simp at hx2
          have hhead : e.layout.toNat ∉ rest.map (fun x => x.layout.toNat) := by
            intro hmem
            obtain ⟨x, hx, hxeq⟩ := List.mem_map.mp hmem
            exact hxe_of_mem x hx hxeq
          constructor
          · refine ⟨?_, ?_, ?_⟩
            · intro x hx
              rcases List.mem_cons.mp hx with rfl | hx2
              · exact hne
              · exact hpt x hx2
            · rw [List.map_cons, List.nodup_cons]
              exact ⟨hhead, hnd⟩
            · intro x hx
              rcases List.mem_cons.mp hx with rfl | hx2
              · simpa using hcov
              · have hx3 := hcv x hx2
                rwa [Function.update_noteq (hxe_of_mem x hx2)] at hx3
          · intro i
            rw [hfin i]
            by_cases hie : i = e.layout.toNat
            · subst hie
              rw [Function.update_same]
              have hex : ∃ x ∈ e :: rest, x.layout.toNat = e.layout.toNat :=
                ⟨e, List.mem_cons_self e rest, rfl⟩
              simp [hex]
            · have hiff : (∃ x ∈ rest, x.layout.toNat = i) ↔
                  (∃ x ∈ e :: rest, x.layout.toNat = i) := by
                constructor
                · rintro ⟨x, hx, hxv⟩
                  exact ⟨x, List.mem_cons_of_mem e hx, hxv⟩
                · rintro ⟨x, hx, hxv⟩
                  rcases List.mem_cons.mp hx with rfl | hx2
                  · exact absurd hxv (fun h => hie h.symm)
                  · exact ⟨x, hx2, hxv⟩
              rw [Function.update_noteq hie, decide_eq_decide.mpr hiff]

lemma map_toNat_eq (entries : List RemapEntry) :
    entries.map (fun e => e.layout.toNat) =
      (entries.map (fun e => e.layout)).map Int.toNat := by
  rw [List.map_map]
  rfl

/-- `checkIdentity` returns true exactly when the entries form the
bijection `i ↔ i` over `[0, renderChannels)`: full count, every entry
diagonal, every channel covered, no duplicates.  The nonnegativity
hypothesis reflects `load`'s range check on every kept entry. -/
lemma checkIdentity_iff (entries : List RemapEntry) (n : ℕ)
    (hnn : ∀ e ∈ entries, 0 ≤ e.layout) :
    checkIdentity entries n = true ↔
      (entries.length = n ∧ (∀ e ∈ entries, e.layout = e.device) ∧
       (∀ i : ℕ, i < n → ∃ e ∈ entries, e.layout = (i : ℤ)) ∧
       (entries.map (fun e => e.layout)).Nodup) := by
  rw [checkIdentity]
  by_cases hlen : entries.length = n
  · rw [if_neg (by omega : ¬entries.length ≠ n)]
    have hspec := checkIdentityGo_spec entries (fun _ => false)
    cases hgo : checkIdentityGo (fun _ => false) entries with
    | none =>
      rw [hgo] at hspec
      constructor
      · intro hfalse
        exact absurd hfalse (by simp)
      · rintro ⟨-, hpt, -, hndl⟩
        exfalso
        apply hspec
        refine ⟨hpt, ?_, fun x _ => rfl⟩
        rw [map_toNat_eq]
        refine List.Nodup.map_on ?_ hndl
        intro x hx y hy hxy
        obtain ⟨ex, hex, rfl⟩ := List.mem_map.mp hx
        obtain ⟨ey, hey, rfl⟩ := List.mem_map.mp hy
        have h1 := hnn ex hex
        have h2 := hnn ey hey
        omega
    | some final =>
      rw [hgo] at hspec
      obtain ⟨⟨hpt, hndt, -⟩, hfin⟩ := hspec
      rw [List.all_eq_true]
      constructor
      · intro hall
        refine ⟨hlen, hpt, ?_, ?_⟩
        · intro i hi
          have h2 := hall i (List.mem_range.mpr hi)
          rw [hfin i] at h2
          simp only [Bool.false_or, decide_eq_true_eq] at h2
          obtain ⟨x, hx, hxv⟩ := h2
          have h3 := hnn x hx
          exact ⟨x, hx, by omega⟩
        · exact List.Nodup.of_map Int.toNat ((map_toNat_eq entries) ▸ hndt)
      · rintro ⟨-, -, hcovg, -⟩
        intro i hi
        rw [hfin i]
        obtain ⟨x, hx, hxv⟩ := hcovg i (List.mem_range.mp hi)
        simp only [Bool.false_or, decide_eq_true_eq]
        exact ⟨x, hx, by omega⟩
  · rw [if_pos hlen]
    simp only [Bool.false_eq_true, false_iff]
    rintro ⟨h1, -⟩
    exact hlen h1

/-- The remap object as seen by the audio thread: the identity flag and
the entry list (`OutputRemap::identity()` / `entries()`). -/
def RemapTable : Type := Bool × List RemapEntry

/-- The identity fast path of the copy step (Spatializer.hpp 373–382):
for each channel up to `min(renderChannels, numOutputChannels)` accumulate
the render buffer into the device buffer, frame by frame. -/
def copyIdentity (render io : ℕ → ℕ → ℚ)
    (renderChannels numOutputChannels numFrames : ℕ) : ℕ → ℕ → ℚ :=
  fun ch f =>
    if ch < min renderChannels numOutputChannels ∧ f < numFrames then
      io ch f + render ch f
    else io ch f

/-- One remap entry of the copy step (Spatializer.hpp 387–395): skipped
when out of range (the C++ `static_cast<unsigned int>` bounds check sends
negative indices past any channel count), otherwise the layout channel is
accumulated into the device channel. -/
def accumEntry (render : ℕ → ℕ → ℚ)
    (renderChannels numOutputChannels numFrames : ℕ) (io : ℕ → ℕ → ℚ)
    (e : RemapEntry) : ℕ → ℕ → ℚ :=
  if 0 ≤ e.layout ∧ e.layout < (renderChannels : ℤ) ∧
      0 ≤ e.device ∧ e.device < (numOutputChannels : ℤ) then
    fun ch f =>
      if ch = e.device.toNat ∧ f < numFrames then
        io ch f + render e.layout.toNat f
      else io ch f
  else io

/-- The copy-to-device step at the end of `Spatializer::renderBlock`
(Spatializer.hpp 369–396): `useIdentity = (mRemap == nullptr) ||
mRemap->identity()` selects the direct-copy fast path; otherwise the
entry list is folded over the device buffer. -/
def copyStep (remap : Option RemapTable) (render io : ℕ → ℕ → ℚ)
    (renderChannels numOutputChannels numFrames : ℕ) : ℕ → ℕ → ℚ :=
  match remap with
  | none => copyIdentity render io renderChannels numOutputChannels numFrames
  | some (identityFlag, entries) =>
    if identityFlag then
      copyIdentity render io renderChannels numOutputChannels numFrames
    else
      entries.foldl (accumEntry render renderChannels numOutputChannels numFrames) io

lemma keptEntries_layout_nonneg (renderChannels deviceChannels : ℕ)
    (rows : List (Option (ℤ × ℤ))) :
    ∀ e ∈ keptEntries renderChannels deviceChannels rows, 0 ≤ e.layout := by
  intro e he
  obtain ⟨row, _, hmap⟩ := List.mem_filterMap.mp he
  cases row with
  | none => exact absurd hmap (by simp)
  | some p =>
    obtain ⟨lay, dev⟩ := p
    have hmap2 : (if lay < 0 ∨ (renderChannels : ℤ) ≤ lay then none
        else if dev < 0 ∨ (deviceChannels : ℤ) ≤ dev then none
        else some (⟨lay, dev⟩ : RemapEntry)) = some e := hmap
    by_cases h1 : lay < 0 ∨ (renderChannels : ℤ) ≤ lay
    · rw [if_pos h1] at hmap2
      exact absurd hmap2 (by simp)
    · rw [if_neg h1] at hmap2
      by_cases h2 : dev < 0 ∨ (deviceChannels : ℤ) ≤ dev
      · rw [if_pos h2] at hmap2
        exact absurd hmap2 (by simp)
      · rw [if_neg h2] at hmap2
        cases Option.some.inj hmap2
        push_neg at h1
        exact h1.1

/-- Claim C9, counterexample: `OutputRemap::load` on a CSV whose single
row is out of range (device 99 with 4 device channels) keeps no entries
and reports failure, yet leaves the `identity` flag true — so "identity
flag ↔ kept entries form the bijection i↔i over [0, render_channels)"
fails after this load: with 2 render channels the empty entry list covers
no channel at all. -/
theorem c9_counterexample :
    (outputRemapLoad 2 4 [some (0, 99)]).1 = true ∧
    (outputRemapLoad 2 4 [some (0, 99)]).2.1 = [] ∧
    (outputRemapLoad 2 4 [some (0, 99)]).2.1.length ≠ 2 ∧
    (outputRemapLoad 2 4 [some (0, 99)]).2.2 = false := by
  refine ⟨by decide, by decide, by decide, by decide⟩

/-- Claim C9 (amended): after a `load` that succeeds (at least one kept
row), the identity flag is true iff the kept entries form exactly the
bijection i ↔ i over `[0, render_channels)` — full count, every entry
diagonal, every channel covered, no duplicates; after a failed `load`
(no valid rows) the flag falls back to true with no kept entries; and
whenever the flag is true the spatializer's direct-copy path is
bit-identical to running with no remap at all. -/
theorem c9_identity_flag :
    (∀ (rC dC : ℕ) (rows : List (Option (ℤ × ℤ))),
      (outputRemapLoad rC dC rows).2.2 = true →
      ((outputRemapLoad rC dC rows).1 = true ↔
        ((outputRemapLoad rC dC rows).2.1.length = rC ∧
         (∀ e ∈ (outputRemapLoad rC dC rows).2.1, e.layout = e.device) ∧
         (∀ i : ℕ, i < rC →
           ∃ e ∈ (outputRemapLoad rC dC rows).2.1, e.layout = (i : ℤ)) ∧
         (((outputRemapLoad rC dC rows).2.1).map (fun e => e.layout)).Nodup))) ∧
    (∀ (rC dC : ℕ) (rows : List (Option (ℤ × ℤ))),
      (outputRemapLoad rC dC rows).2.2 = false →
      (outputRemapLoad rC dC rows).1 = true ∧
      (outputRemapLoad rC dC rows).2.1 = []) ∧
    (∀ (entries : List RemapEntry) (render io : ℕ → ℕ → ℚ) (rC oC nF : ℕ),
      copyStep (some (true, entries)) render io rC oC nF =
        copyStep none render io rC oC nF) := by
  refine ⟨?_, ?_, ?_⟩
  · intro rC dC rows hsucc
    by_cases hemp : (keptEntries rC dC rows).isEmpty = true
    · rw [outputRemapLoad] at hsucc
      simp only [hemp, if_true] at hsucc
      exact absurd hsucc (by simp)
    · simp only [outputRemapLoad, hemp, if_false]
      exact checkIdentity_iff (keptEntries rC dC rows) rC
        (keptEntries_layout_nonneg rC dC rows)
  · intro rC dC rows hfail
    by_cases hemp : (keptEntries rC dC rows).isEmpty = true
    · simp only [outputRemapLoad, hemp, if_true]
      exact ⟨by trivial, by trivial⟩
    · rw [outputRemapLoad] at hfail
      simp only [hemp, if_false] at hfail
      exact absurd hfail (by simp)
  · intro entries render io rC oC nF
    rfl

/-- Witness for `c9_identity_flag`: the CSV `0,0 / 1,1` with 2 render and
2 device channels loads successfully and sets the identity flag, and the
fast path equals the no-remap copy on concrete buffers. -/
theorem c9_identity_flag_witness :
    (outputRemapLoad 2 2 [some (0, 0), some (1, 1)]).1 = true ∧
    copyStep (some (true, [⟨0, 0⟩, ⟨1, 1⟩]))
        (fun ch f => (ch : ℚ) + f) (fun _ _ => 0) 2 2 4 =
      copyStep none (fun ch f => (ch : ℚ) + f) (fun _ _ => 0) 2 2 4 := by
  constructor
  · exact (c9_identity_flag.1 2 2 [some (0, 0), some (1, 1)] (by decide)).mpr
      ⟨by decide, by decide, by decide, by decide⟩
  · exact c9_identity_flag.2.2 [⟨0, 0⟩, ⟨1, 1⟩]
      (fun ch f => (ch : ℚ) + f) (fun _ _ => 0) 2 2 4

/-! ## Spatializer: LFE subwoofer routing

The `pose.isLFE` branch of `Spatializer::renderBlock` (Spatializer.hpp
289–308).  The mono block fetched from `Streaming::getBlock` is the
abstract `srcBuf`; the render buffer is a function channel → frame → ℚ. -/

/-- LFE/subwoofer compensation factor (Spatializer.hpp 528–531). -/
def kSubCompensation : ℚ := 95 / 100

/-- Accumulation of the LFE block onto one subwoofer channel
(Spatializer.hpp 299–307): skipped when the channel index is outside the
render buffer (the `static_cast<unsigned int>` bounds check also sends
negative indices out of range). -/
def accumSubChannel (srcBuf : ℕ → ℚ) (subGain : ℚ)
    (numFrames renderChannels : ℕ) (buf : ℕ → ℕ → ℚ) (subCh : ℤ) :
    ℕ → ℕ → ℚ :=
  if 0 ≤ subCh ∧ subCh < (renderChannels : ℤ) then
    fun ch f =>
      if ch = subCh.toNat ∧ f < numFrames then
        buf ch f + srcBuf f * subGain
      else buf ch f
  else buf

/-- The LFE branch of `Spatializer::renderBlock` for one valid LFE pose
(Spatializer.hpp 289–308): nothing happens with no subwoofers configured;
otherwise `subGain = masterGain · 0.95 / numSubs` is accumulated from the
source block onto every configured subwoofer channel. -/
def renderLFE (buf : ℕ → ℕ → ℚ) (subChannels : List ℤ)
    (renderChannels numFrames : ℕ) (srcBuf : ℕ → ℚ) (masterGain : ℚ) :
    ℕ → ℕ → ℚ :=
  if subChannels.isEmpty then buf
  else
    subChannels.foldl
      (accumSubChannel srcBuf
        (masterGain * kSubCompensation / (subChannels.length : ℚ))
        numFrames renderChannels)
      buf

lemma foldl_accumSub_spec (srcBuf : ℕ → ℚ) (subGain : ℚ) (nF rC : ℕ) :
    ∀ (l : List ℤ) (buf : ℕ → ℕ → ℚ), l.Nodup → ∀ (ch f : ℕ),
    (l.foldl (accumSubChannel srcBuf subGain nF rC) buf) ch f =
      if (ch : ℤ) ∈ l ∧ ch < rC ∧ f < nF then
        buf ch f + srcBuf f * subGain
      else buf ch f := by
  intro l
  induction l with
  | nil =>
    intro buf _ ch f
    simp
  | cons sc rest ih =>
    intro buf hnd ch f
    rw [List.foldl_cons]
    rw [List.nodup_cons] at hnd
    rw [ih (accumSubChannel srcBuf subGain nF rC buf sc) hnd.2 ch f]
    by_cases hsc : (ch : ℤ) = sc
    · have hnotrest : (ch : ℤ) ∉ rest := hsc ▸ hnd.1
      have hbuf : accumSubChannel srcBuf subGain nF rC buf sc ch f =
          if ch < rC ∧ f < nF then buf ch f + srcBuf f * subGain
          else buf ch f := by
        rw [accumSubChannel]
        by_cases hrange : 0 ≤ sc ∧ sc < (rC : ℤ)
        · rw [if_pos hrange]
          by_cases hcond : ch < rC ∧ f < nF
          · rw [if_pos hcond, if_pos ⟨by omega, hcond.2⟩]
          · rw [if_neg hcond, if_neg (by omega)]
        · rw [if_neg hrange, if_neg (by omega)]
      rw [if_neg (by tauto : ¬((ch : ℤ) ∈ rest ∧ ch < rC ∧ f < nF)), hbuf]
      have hmem : (ch : ℤ) ∈ sc :: rest := hsc ▸ List.mem_cons_self sc rest
      by_cases hcond : ch < rC ∧ f < nF
      · rw [if_pos hcond, if_pos ⟨hmem, hcond⟩]
      · rw [if_neg hcond, if_neg (by tauto)]
    · have hbuf : accumSubChannel srcBuf subGain nF rC buf sc ch f = buf ch f := by
        rw [accumSubChannel]
        by_cases hrange : 0 ≤ sc ∧ sc < (rC : ℤ)
        · rw [if_pos hrange, if_neg (by omega)]
        · rw [if_neg hrange]
      rw [hbuf]
      have hmemiff : ((ch : ℤ) ∈ sc :: rest ∧ ch < rC ∧ f < nF) ↔
          ((ch : ℤ) ∈ rest ∧ ch < rC ∧ f < nF) := by
        constructor
        · rintro ⟨hm, hc⟩
          rcases List.mem_cons.mp hm with he | hm2
          · exact absurd he hsc
          · exact ⟨hm2, hc⟩
        · rintro ⟨hm, hc⟩
          exact ⟨List.mem_cons_of_mem sc hm, hc⟩
      by_cases hcond : (ch : ℤ) ∈ rest ∧ ch < rC ∧ f < nF
      · rw [if_pos hcond, if_pos (hmemiff.mpr hcond)]
      · rw [if_neg hcond, if_neg (fun h => hcond (hmemiff.mp h))]

/-- Claim C7: for a valid LFE pose with at least one subwoofer configured,
`renderBlock` accumulates `source[f] · masterGain · 0.95 / numSubs` onto
each configured subwoofer channel that lies inside the render buffer, and
every channel not configured as a subwoofer — in particular every main
speaker channel — is untouched by the LFE source, as is every frame at or
beyond the block length. -/
theorem c7_lfe_routing :
    ∀ (buf : ℕ → ℕ → ℚ) (subChannels : List ℤ) (rC nF : ℕ)
      (srcBuf : ℕ → ℚ) (masterGain : ℚ),
    subChannels ≠ [] → subChannels.Nodup →
    (∀ sc : ℕ, (sc : ℤ) ∈ subChannels → sc < rC → ∀ f, f < nF →
      renderLFE buf subChannels rC nF srcBuf masterGain sc f =
        buf sc f + srcBuf f *
          (masterGain * (95 / 100) / (subChannels.length : ℚ))) ∧
    (∀ ch : ℕ, (ch : ℤ) ∉ subChannels → ∀ f,
      renderLFE buf subChannels rC nF srcBuf masterGain ch f = buf ch f) ∧
    (∀ ch f, nF ≤ f →
      renderLFE buf subChannels rC nF srcBuf masterGain ch f = buf ch f) := by
  intro buf subChannels rC nF srcBuf masterGain hne hnd
  have hemp : ¬subChannels.isEmpty = true := by
    cases subChannels
    · exact absurd rfl hne
    · simp
  have hfold := foldl_accumSub_spec srcBuf
    (masterGain * kSubCompensation / (subChannels.length : ℚ)) nF rC
    subChannels buf hnd
  refine ⟨?_, ?_, ?_⟩
  · intro sc hmem hrc f hf
    rw [renderLFE, if_neg hemp, hfold sc f, if_pos ⟨hmem, hrc, hf⟩]
    rfl
  · intro ch hmem f
    rw [renderLFE, if_neg hemp, hfold ch f, if_neg (by tauto)]
  · intro ch f hf
    rw [renderLFE, if_neg hemp, hfold ch f, if_neg (by omega)]

/-- Witness for `c7_lfe_routing`, the claim's own example: master gain 1,
subwoofers on channels 4 and 5 of a 6-channel render buffer, unit input —
each subwoofer channel carries exactly 0.95 / 2 = 0.475 per frame. -/
theorem c7_lfe_routing_witness :
    renderLFE (fun _ _ => 0) [4, 5] 6 4 (fun _ => 1) 1 4 0 =
      0 + 1 * (1 * (95 / 100) / 2) ∧
    renderLFE (fun _ _ => 0) [4, 5] 6 4 (fun _ => 1) 1 0 0 = 0 ∧
    (1 : ℚ) * (1 * (95 / 100) / 2) = 19 / 40 := by
  obtain ⟨h1, h2, -⟩ := c7_lfe_routing (fun _ _ => 0) [4, 5] 6 4 (fun _ => 1) 1
    (by decide) (by decide)
  refine ⟨?_, ?_, by norm_num⟩
  · have := h1 4 (by decide) (by decide) 0 (by decide)
    simpa using this
  · have := h2 0 (by decide) 0
    simpa using this

/-! ## Backend driver: `RealtimeBackend::processBlock`

`RealtimeBackend.hpp` 237–388.  Two quantities that C++ computes with
transcendental library calls are taken as parameters: `alpha`, standing
for `1 − exp(−blockDur/τ)` of step B, and `cpu`, standing for
`mAudioIO.cpu()` — neither value affects the properties proved here.
`Pose::computePositions` (step 2) writes only Pose-internal state and is
therefore not part of this state; the effect of
`Spatializer::renderBlock` (step 3) on the device buffer is the oracle
`render`, an arbitrary transformation of the zeroed buffer. -/

/-- The per-block control snapshot (RealtimeBackend.hpp 428–434). -/
structure ControlSnapshot where
  masterGain : ℚ
  focus : ℚ
  loudspeakerMix : ℚ
  subMix : ℚ
  autoComp : Bool

/-- The runtime-mutable configuration values touched by `processBlock`
(RealtimeTypes.hpp `RealtimeConfig`). -/
structure ConfigState where
  masterGain : ℚ
  dbapFocus : ℚ
  loudspeakerMix : ℚ
  subMix : ℚ
  focusAutoCompensation : Bool
  paused : Bool
  sampleRate : ℕ

/-- The audio-thread-owned state of `RealtimeBackend` (smoothing, pause
fade, per-channel gain anchors). -/
structure BackendState where
  smoothed : ControlSnapshot
  target : ControlSnapshot
  prevPaused : Bool
  pauseFade : ℚ
  pauseFadeStep : ℚ
  pauseFadeFramesLeft : ℕ
  prevChannelGains : ℕ → ℚ
  nextChannelGains : ℕ → ℚ
  channelGainsSize : ℕ

/-- One exponential smoothing update toward the target snapshot
(RealtimeBackend.hpp 261–276), `s + α (t − s)` per field and the boolean
taken immediately. -/
def smoothStep (s t : ControlSnapshot) (alpha : ℚ) : ControlSnapshot where
  masterGain := s.masterGain + alpha * (t.masterGain - s.masterGain)
  focus := s.focus + alpha * (t.focus - s.focus)
  loudspeakerMix := s.loudspeakerMix + alpha * (t.loudspeakerMix - s.loudspeakerMix)
  subMix := s.subMix + alpha * (t.subMix - s.subMix)
  autoComp := t.autoComp

/-- The per-sample pause-fade loop of step 4 (RealtimeBackend.hpp
350–363): starting at frame `fStart`, process `n` frames; while ramp
samples remain, advance and clamp the fade, then scale every output
channel at that frame by the current fade gain.  Returns the scaled
buffer, the final fade value and the remaining ramp samples. -/
def fadeLoop (step : ℚ) (numChannels : ℕ) :
    (ℕ → ℕ → ℚ) → ℚ → ℕ → ℕ → ℕ → ((ℕ → ℕ → ℚ) × ℚ × ℕ)
  | io, fade, framesLeft, _, 0 => (io, fade, framesLeft)
  | io, fade, framesLeft, fStart, Nat.succ m =>
    let fade2 := if 0 < framesLeft then max 0 (min 1 (fade + step)) else fade
    let left2 := if 0 < framesLeft then framesLeft - 1 else framesLeft
    let io2 := fun ch f =>
      if ch < numChannels ∧ f = fStart then io ch f * fade2 else io ch f
    fadeLoop step numChannels io2 fade2 left2 (fStart + 1) m

/-- Model of `RealtimeBackend::processBlock` (RealtimeBackend.hpp
237–388): control snapshot, smoothing, pause-edge detection, channel-gain
anchors, output zeroing, rendering (the `render` oracle), the pause fade,
the fully-paused early return, and the frame-counter/time/CPU-load state
update.  Returns the final configuration, telemetry, backend state and
device buffer. -/
def processBlock (cfg : ConfigState) (st : EngineState) (bs : BackendState)
    (io : ℕ → ℕ → ℚ) (numFrames numChannels : ℕ) (alpha cpu : ℚ)
    (render : (ℕ → ℕ → ℚ) → (ℕ → ℕ → ℚ)) :
    ConfigState × EngineState × BackendState × (ℕ → ℕ → ℚ) :=
  -- A) snapshot the config atomics once
  let target : ControlSnapshot :=
    ⟨cfg.masterGain, cfg.dbapFocus, cfg.loudspeakerMix, cfg.subMix,
     cfg.focusAutoCompensation⟩
  -- B) exponential smoothing toward the snapshot
  let smoothed := smoothStep bs.smoothed target alpha
  -- C) pause-edge detection; kPauseFadeMs = 8 ms of ramp, at least 1 frame
  let pausedNow := cfg.paused
  let fadeN : ℕ := max 1 (8 * cfg.sampleRate / 1000)
  let fade0 := if pausedNow ≠ bs.prevPaused ∧ ¬pausedNow then 0 else bs.pauseFade
  let fadeStep :=
    if pausedNow ≠ bs.prevPaused then
      (if pausedNow then -(bs.pauseFade / (fadeN : ℚ)) else 1 / (fadeN : ℚ))
    else bs.pauseFadeStep
  let framesLeft0 :=
    if pausedNow ≠ bs.prevPaused then fadeN else bs.pauseFadeFramesLeft
  let prevPaused2 := pausedNow
  -- D) per-channel gain anchors (resize on channel-count change, shift, reset)
  let gPrev0 := if bs.channelGainsSize ≠ numChannels then
      (fun _ => (1 : ℚ)) else bs.prevChannelGains
  let gNext0 := if bs.channelGainsSize ≠ numChannels then
      (fun _ => (1 : ℚ)) else bs.nextChannelGains
  let gPrev := fun c => if c < numChannels then gNext0 c else gPrev0 c
  let gNext := fun c => if c < numChannels then (1 : ℚ) else gNext0 c
  -- Step 1: zero all output channels
  let io1 := fun ch f =>
    if ch < numChannels ∧ f < numFrames then (0 : ℚ) else io ch f
  -- Step 2: Pose::computePositions — touches only Pose-internal state
  -- Step 3: write smoothed values back to the config, then render
  let cfg2 := { cfg with
    masterGain := smoothed.masterGain
    loudspeakerMix := smoothed.loudspeakerMix
    subMix := smoothed.subMix
    dbapFocus := smoothed.focus }
  let io2 := render io1
  -- Step 4: per-sample pause fade
  let faded :=
    if 0 < framesLeft0 ∨ fade0 < 1 then
      fadeLoop fadeStep numChannels io2 fade0 framesLeft0 0 numFrames
    else (io2, fade0, framesLeft0)
  let io3 := faded.1
  let fade3 := faded.2.1
  let left3 := faded.2.2
  let bs2 : BackendState :=
    { smoothed := smoothed, target := target, prevPaused := prevPaused2,
      pauseFade := fade3, pauseFadeStep := fadeStep,
      pauseFadeFramesLeft := left3, prevChannelGains := gPrev,
      nextChannelGains := gNext, channelGainsSize := numChannels }
  -- fully paused: clear the buffers, publish CPU load only, return
  if pausedNow ∧ left3 = 0 ∧ fade3 ≤ 0 then
    let io4 := fun ch f =>
      if ch < numChannels ∧ f < numFrames then (0 : ℚ) else io3 ch f
    (cfg2, { st with cpuLoad := max 0 (min 1 cpu) }, bs2, io4)
  else
    -- Steps 5–6: advance the frame counter and playback time, publish CPU
    let newFrames := st.frameCounter + numFrames
    (cfg2,
     { st with
        frameCounter := newFrames
        playbackTimeSec := (newFrames : ℚ) / (cfg.sampleRate : ℚ)
        cpuLoad := max 0 (min 1 cpu) },
     bs2, io3)

lemma fadeLoop_zero_fade (step : ℚ) (nC : ℕ) :
    ∀ (n : ℕ) (io : ℕ → ℕ → ℚ) (fStart : ℕ),
    (fadeLoop step nC io 0 0 fStart n).2 = (0, 0) := by
  intro n
  induction n with
  | zero => intro io fStart; rfl
  | succ m ih =>
    intro io fStart
    rw [fadeLoop]
    simp only [lt_irrefl, if_false]
    exact ih _ (fStart + 1)

/-- Claim C8: in a block processed while paused with the pause fade
completed (fade 0, no ramp samples left, pause edge already consumed),
every output sample of the block is exactly zero, `frame_counter` and
`playback_time_sec` are left unchanged, and the only `EngineState` field
written is `cpu_load` (clamped to [0,1]) — stated as: the final telemetry
equals the initial one with only `cpuLoad` replaced. -/
theorem c8_fully_paused_block :
    ∀ (cfg : ConfigState) (st : EngineState) (bs : BackendState)
      (io : ℕ → ℕ → ℚ) (numFrames numChannels : ℕ) (alpha cpu : ℚ)
      (render : (ℕ → ℕ → ℚ) → (ℕ → ℕ → ℚ)),
    cfg.paused = true → bs.prevPaused = true →
    bs.pauseFade = 0 → bs.pauseFadeFramesLeft = 0 →
    (∀ ch f, ch < numChannels → f < numFrames →
      (processBlock cfg st bs io numFrames numChannels alpha cpu
        render).2.2.2 ch f = 0) ∧
    (processBlock cfg st bs io numFrames numChannels alpha cpu render).2.1 =
      { st with cpuLoad := max 0 (min 1 cpu) } ∧
    (processBlock cfg st bs io numFrames numChannels alpha cpu
      render).2.1.frameCounter = st.frameCounter ∧
    (processBlock cfg st bs io numFrames numChannels alpha cpu
      render).2.1.playbackTimeSec = st.playbackTimeSec := by
  intro cfg st bs io numFrames numChannels alpha cpu render hp hpp hf hfl
  have hedge : ¬(cfg.paused ≠ bs.prevPaused) := by
    rw [hp, hpp]
    simp
  have hfade := fadeLoop_zero_fade bs.pauseFadeStep numChannels numFrames
    (render (fun ch f =>
      if ch < numChannels ∧ f < numFrames then (0 : ℚ) else io ch f)) 0
  unfold processBlock
  simp only [hp, hpp, hf, hfl, hedge, ne_eq, not_true_eq_false, false_and,
    if_false, ite_false, lt_irrefl, zero_lt_one, or_true, if_true, ite_true,
    hfade, Prod.fst, Prod.snd]
  constructor
  · intro ch f hch hfr
    simp [hch, hfr, hfade]
  · refine ⟨?_, ?_, ?_⟩ <;> simp [hfade]

/-- A fully-paused configuration for the witness. -/
def demoPausedConfig : ConfigState where
  masterGain := 1
  dbapFocus := 1
  loudspeakerMix := 1
  subMix := 1
  focusAutoCompensation := false
  paused := true
  sampleRate := 48000

/-- Backend state with the pause fade completed for the witness. -/
def demoPausedBackend : BackendState where
  smoothed := ⟨1, 1, 1, 1, false⟩
  target := ⟨1, 1, 1, 1, false⟩
  prevPaused := true
  pauseFade := 0
  pauseFadeStep := 0
  pauseFadeFramesLeft := 0
  prevChannelGains := fun _ => 1
  nextChannelGains := fun _ => 1
  channelGainsSize := 2

/-- Witness for `c8_fully_paused_block` at a concrete fully-paused block:
output sample (0,0) is zero and the telemetry keeps its frame counter. -/
theorem c8_fully_paused_block_witness :
    (processBlock demoPausedConfig initialEngineState demoPausedBackend
      (fun _ _ => 5) 4 2 (1/2) (3/4) id).2.2.2 0 0 = 0 ∧
    (processBlock demoPausedConfig initialEngineState demoPausedBackend
      (fun _ _ => 5) 4 2 (1/2) (3/4) id).2.1.frameCounter =
      initialEngineState.frameCounter :=
  ⟨(c8_fully_paused_block demoPausedConfig initialEngineState
      demoPausedBackend (fun _ _ => 5) 4 2 (1/2) (3/4) id
      rfl rfl rfl rfl).1 0 0 (by decide) (by decide),
   (c8_fully_paused_block demoPausedConfig initialEngineState
      demoPausedBackend (fun _ _ => 5) 4 2 (1/2) (3/4) id
      rfl rfl rfl rfl).2.2.1⟩

/-! ## The loader/audio buffer state machine (claim C4)

An interleaving model of one `SourceStream`'s buffer states after
`loadFirstChunk`, with the loader thread's chunk load split at its two
state stores (`LOADING` at Streaming.hpp 249, `READY` at 282 — file I/O
and the `chunkStart`/`validFrames` stores happen in between) and the
audio thread's buffer switch split at its three stores (Streaming.hpp
328–330).  Buffer contents, chunk starts and frame counts are elided:
the timing/data guards of the code (`currentFrame ≥ threshold`,
`nextChunkStart < totalFrames`, the requested frame lying in the READY
buffer's range) are over-approximated by nondeterministic scheduling —
each step may fire whenever its structural guard holds, so every
interleaving of the real system is a run of this machine.  `active` is a
`Bool` (false = buffer A); after `loadFirstChunk` the C++ `activeBuffer`
is 0 or 1, and `other = 1 − active` is the negation. -/

/-- Program counter of the audio thread inside the three-store buffer
switch of `getSample` (idle = not switching). -/
inductive AudioPc : Type
  | idle
  | sw1done
  | sw2done
deriving DecidableEq, Repr, Fintype

/-- Control state of one stream as seen by the two threads. -/
structure SwitchState where
  stateA : StreamBufferState
  stateB : StreamBufferState
  active : Bool
  audioPc : AudioPc
  loaderPending : Option Bool
deriving DecidableEq, Repr, Fintype

/-- State of buffer `b` (false = A, true = B). -/
def bufState (s : SwitchState) (b : Bool) : StreamBufferState :=
  if b then s.stateB else s.stateA

/-- Store a state flag into buffer `b`. -/
def setBuf (s : SwitchState) (b : Bool) (v : StreamBufferState) : SwitchState :=
  if b then { s with stateB := v } else { s with stateA := v }

/-- State right after `loadFirstChunk`: buffer A active and PLAYING
(Streaming.hpp 234–236), buffer B untouched. -/
def initSwitchState : SwitchState where
  stateA := .PLAYING
  stateB := .EMPTY
  active := false
  audioPc := .idle
  loaderPending := none

/-- Loader step 1 (loaderWorkerMono, Streaming.hpp 716–727, and the
`LOADING` store of `loadChunkInto`, line 249): when not already mid-load
and the inactive buffer is EMPTY, mark it LOADING.  The timing guards
(preload threshold, end of file) are nondeterministic here. -/
def loaderBegin (s : SwitchState) : Option SwitchState :=
  if s.loaderPending = none ∧ bufState s (!s.active) = .EMPTY then
    some { setBuf s (!s.active) .LOADING with loaderPending := some (!s.active) }
  else none

/-- Loader step 2 (the rest of `loadChunkInto`, Streaming.hpp 251–282):
after the disk read and the `chunkStart`/`validFrames` stores, publish
the pending buffer as READY. -/
def loaderFinish (s : SwitchState) : Option SwitchState :=
  match s.loaderPending with
  | some i => some { setBuf s i .READY with loaderPending := none }
  | none => none

/-- Audio switch store 1 (Streaming.hpp 328): when the requested frame is
not in the active buffer and the other buffer is READY (the range check
is nondeterministic), mark the previously active buffer EMPTY. -/
def audioSw1 (s : SwitchState) : Option SwitchState :=
  if s.audioPc = .idle ∧ bufState s (!s.active) = .READY then
    some { setBuf s s.active .EMPTY with audioPc := .sw1done }
  else none

/-- Audio switch store 2 (Streaming.hpp 329): mark the other buffer
PLAYING. -/
def audioSw2 (s : SwitchState) : Option SwitchState :=
  if s.audioPc = .sw1done then
    some { setBuf s (!s.active) .PLAYING with audioPc := .sw2done }
  else none

/-- Audio switch store 3 (Streaming.hpp 330): publish the new active
buffer index. -/
def audioSw3 (s : SwitchState) : Option SwitchState :=
  if s.audioPc = .sw2done then
    some { s with active := !s.active, audioPc := .idle }
  else none

/-- One interleaved step of the two threads.  Audio-thread calls that do
not switch buffers leave this state unchanged and are omitted. -/
def SwitchStep (s t : SwitchState) : Prop :=
  loaderBegin s = some t ∨ loaderFinish s = some t ∨
    audioSw1 s = some t ∨ audioSw2 s = some t ∨ audioSw3 s = some t

/-- States reachable from the post-`loadFirstChunk` state by interleaving
loader and audio steps. -/
inductive SwitchReachable : SwitchState → Prop
  | init : SwitchReachable initSwitchState
  | step {s t : SwitchState} : SwitchReachable s → SwitchStep s t →
      SwitchReachable t

/-- The inductive invariant: outside a switch the active buffer is
PLAYING and the other is never PLAYING (and LOADING only while the
loader is mid-load); mid-switch the flags are pinned and the loader is
idle; a mid-load buffer is the inactive one, is LOADING, and the audio
thread is not mid-switch. -/
def switchInv (s : SwitchState) : Bool :=
  (match s.audioPc with
   | .idle =>
     decide (bufState s s.active = .PLAYING) &&
       !decide (bufState s (!s.active) = .PLAYING) &&
       (decide (bufState s (!s.active) = .LOADING) →
         decide (s.loaderPending = some (!s.active)))
   | .sw1done =>
     decide (bufState s s.active = .EMPTY) &&
       decide (bufState s (!s.active) = .READY) &&
       decide (s.loaderPending = none)
   | .sw2done =>
     decide (bufState s s.active = .EMPTY) &&
       decide (bufState s (!s.active) = .PLAYING) &&
       decide (s.loaderPending = none)) &&
  (match s.loaderPending with
   | some i =>
     decide (i = !s.active) && decide (bufState s i = .LOADING) &&
       decide (s.audioPc = .idle)
   | none => true)

lemma switchInv_init : switchInv initSwitchState = true := by decide

set_option maxRecDepth 40000 in
lemma switchInv_steps :
    ∀ s : SwitchState, switchInv s = true →
      (Option.all switchInv (loaderBegin s) &&
       Option.all switchInv (loaderFinish s) &&
       Option.all switchInv (audioSw1 s) &&
       Option.all switchInv (audioSw2 s) &&
       Option.all switchInv (audioSw3 s)) = true := by
  decide

lemma switchReachable_inv {s : SwitchState} (h : SwitchReachable s) :
    switchInv s = true := by
  induction h with
  | init => exact switchInv_init
  | step hr hstep ih =>
    rename_i s0 t0
    have hall := switchInv_steps s0 ih
    simp only [Bool.and_eq_true] at hall
    rcases hstep with h | h | h | h | h
    · have := hall.1.1.1.1
      rw [h] at this
      simpa using this
    · have := hall.1.1.1.2
      rw [h] at this
      simpa using this
    · have := hall.1.1.2
      rw [h] at this
      simpa using this
    · have := hall.1.2
      rw [h] at this
      simpa using this
    · have := hall.2
      rw [h] at this
      simpa using this

set_option maxRecDepth 40000 in
lemma switchInv_at_most_one :
    ∀ s : SwitchState, switchInv s = true →
      ¬(s.stateA = .LOADING ∧ s.stateB = .LOADING) ∧
      ¬(s.stateA = .PLAYING ∧ s.stateB = .PLAYING) := by
  decide

set_option maxRecDepth 40000 in
lemma loaderBegin_empty_to_loading :
    ∀ s : SwitchState,
      Option.all (fun t => decide (bufState s (!s.active) = .EMPTY ∧
        bufState t (!s.active) = .LOADING)) (loaderBegin s) = true := by
  decide

set_option maxRecDepth 40000 in
lemma loaderFinish_loading_to_ready :
    ∀ s : SwitchState, switchInv s = true →
      Option.all (fun t => decide (∃ i, s.loaderPending = some i ∧
        bufState s i = .LOADING ∧ bufState t i = .READY))
        (loaderFinish s) = true := by
  decide

set_option maxRecDepth 40000 in
lemma audioSw1_playing_to_empty :
    ∀ s : SwitchState, switchInv s = true →
      Option.all (fun t => decide (bufState s s.active = .PLAYING ∧
        bufState t s.active = .EMPTY)) (audioSw1 s) = true := by
  decide

set_option maxRecDepth 40000 in
lemma audioSw2_ready_to_playing :
    ∀ s : SwitchState, switchInv s = true →
      Option.all (fun t => decide (bufState s (!s.active) = .READY ∧
        bufState t (!s.active) = .PLAYING)) (audioSw2 s) = true := by
  decide

/-- Claim C4: in every state reachable by interleaving the loader's
chunk-load steps with the audio thread's buffer switches after
`loadFirstChunk`, at most one of the two buffers is LOADING and at most
one is PLAYING; the loader starts a load only on an EMPTY buffer and
takes it EMPTY → LOADING → READY; the audio thread's switch takes the
READY buffer to PLAYING and the previously active (PLAYING) buffer to
EMPTY. -/
theorem c4_buffer_state_machine :
    (∀ s, SwitchReachable s →
      ¬(s.stateA = .LOADING ∧ s.stateB = .LOADING) ∧
      ¬(s.stateA = .PLAYING ∧ s.stateB = .PLAYING)) ∧
    (∀ s t, loaderBegin s = some t →
      bufState s (!s.active) = .EMPTY ∧ bufState t (!s.active) = .LOADING) ∧
    (∀ s t, SwitchReachable s → loaderFinish s = some t →
      ∃ i, s.loaderPending = some i ∧ bufState s i = .LOADING ∧
        bufState t i = .READY) ∧
    (∀ s t, SwitchReachable s → audioSw1 s = some t →
      bufState s s.active = .PLAYING ∧ bufState t s.active = .EMPTY) ∧
    (∀ s t, SwitchReachable s → audioSw2 s = some t →
      bufState s (!s.active) = .READY ∧ bufState t (!s.active) = .PLAYING) := by
  refine ⟨?_, ?_, ?_, ?_, ?_⟩
  · intro s hs
    exact switchInv_at_most_one s (switchReachable_inv hs)
  · intro s t h
    have := loaderBegin_empty_to_loading s
    rw [h] at this
    simpa using this
  · intro s t hs h
    have := loaderFinish_loading_to_ready s (switchReachable_inv hs)
    rw [h] at this
    simpa using this
  · intro s t hs h
    have := audioSw1_playing_to_empty s (switchReachable_inv hs)
    rw [h] at this
    simpa using this
  · intro s t hs h
    have := audioSw2_ready_to_playing s (switchReachable_inv hs)
    rw [h] at this
    simpa using this

/-- Witness for `c4_buffer_state_machine`: the initial state is reachable
and satisfies both mutual-exclusion properties, and from it the loader's
first step takes buffer B from EMPTY to LOADING. -/
theorem c4_buffer_state_machine_witness :
    (¬(initSwitchState.stateA = .LOADING ∧
        initSwitchState.stateB = .LOADING) ∧
      ¬(initSwitchState.stateA = .PLAYING ∧
        initSwitchState.stateB = .PLAYING)) ∧
    (bufState initSwitchState (!initSwitchState.active) = .EMPTY ∧
      bufState (⟨.PLAYING, .LOADING, false, .idle, some true⟩ : SwitchState)
        (!initSwitchState.active) = .LOADING) :=
  ⟨c4_buffer_state_machine.1 initSwitchState SwitchReachable.init,
   c4_buffer_state_machine.2.1 initSwitchState
     ⟨.PLAYING, .LOADING, false, .idle, some true⟩ (by decide)⟩

/-! ## Pose: vectors over ℝ

`al::Vec3f` and the direction mathematics of `Pose.hpp`, idealised over
the reals (the C++ code computes in `float`). -/

/-- A 3-vector of reals (`al::Vec3f`). -/
@[ext]
structure Vec3 where
  x : ℝ
  y : ℝ
  z : ℝ

noncomputable instance : Add Vec3 := ⟨fun a b => ⟨a.x + b.x, a.y + b.y, a.z + b.z⟩⟩

noncomputable instance : Sub Vec3 := ⟨fun a b => ⟨a.x - b.x, a.y - b.y, a.z - b.z⟩⟩

noncomputable instance : Neg Vec3 := ⟨fun a => ⟨-a.x, -a.y, -a.z⟩⟩

noncomputable instance : SMul ℝ Vec3 := ⟨fun r a => ⟨r * a.x, r * a.y, r * a.z⟩⟩

@[simp] lemma Vec3.add_x (a b : Vec3) : (a + b).x = a.x + b.x := rfl
@[simp] lemma Vec3.add_y (a b : Vec3) : (a + b).y = a.y + b.y := rfl
@[simp] lemma Vec3.add_z (a b : Vec3) : (a + b).z = a.z + b.z := rfl
@[simp] lemma Vec3.sub_x (a b : Vec3) : (a - b).x = a.x - b.x := rfl
@[simp] lemma Vec3.sub_y (a b : Vec3) : (a - b).y = a.y - b.y := rfl
@[simp] lemma Vec3.sub_z (a b : Vec3) : (a - b).z = a.z - b.z := rfl
@[simp] lemma Vec3.neg_x (a : Vec3) : (-a).x = -a.x := rfl
@[simp] lemma Vec3.neg_y (a : Vec3) : (-a).y = -a.y := rfl
@[simp] lemma Vec3.neg_z (a : Vec3) : (-a).z = -a.z := rfl
@[simp] lemma Vec3.smul_x (r : ℝ) (a : Vec3) : (r • a).x = r * a.x := rfl
@[simp] lemma Vec3.smul_y (r : ℝ) (a : Vec3) : (r • a).y = r * a.y := rfl
@[simp] lemma Vec3.smul_z (r : ℝ) (a : Vec3) : (r • a).z = r * a.z := rfl

/-- Dot product (`al::Vec::dot`). -/
def Vec3.dot (a b : Vec3) : ℝ := a.x * b.x + a.y * b.y + a.z * b.z

/-- Squared magnitude (`al::Vec::magSqr`). -/
def Vec3.magSqr (a : Vec3) : ℝ := a.x * a.x + a.y * a.y + a.z * a.z

/-- Magnitude (`al::Vec::mag`). -/
noncomputable def Vec3.mag (a : Vec3) : ℝ := Real.sqrt a.magSqr

/-- Cross product (`al::Vec` `cross`). -/
def Vec3.cross (a b : Vec3) : Vec3 :=
  ⟨a.y * b.z - a.z * b.y, a.z * b.x - a.x * b.z, a.x * b.y - a.y * b.x⟩

/-- Division of a vector by its magnitude; `al::Vec::normalize`.  The
AlloLib degenerate-magnitude guard is irrelevant to the proofs below:
`normalize` is only applied to cross products of a unit vector with a
non-parallel axis, or its result is multiplied by zero. -/
noncomputable def Vec3.normalize (a : Vec3) : Vec3 :=
  ⟨a.x / a.mag, a.y / a.mag, a.z / a.mag⟩

/-- Model of `Pose::safeNormalize` (Pose.hpp 254–260): a vector of
magnitude below 1e-6 (or non-finite, impossible over ℝ) is replaced by
the forward direction. -/
noncomputable def safeNormalize (v : Vec3) : Vec3 :=
  if v.mag < 1e-6 then ⟨0, 1, 0⟩ else ⟨v.x / v.mag, v.y / v.mag, v.z / v.mag⟩

lemma Vec3.magSqr_nonneg (a : Vec3) : 0 ≤ a.magSqr := by
  unfold Vec3.magSqr
  nlinarith [sq_nonneg a.x, sq_nonneg a.y, sq_nonneg a.z]

lemma Vec3.mag_nonneg (a : Vec3) : 0 ≤ a.mag := Real.sqrt_nonneg _

lemma Vec3.magSqr_eq_one_of_mag_eq_one {a : Vec3} (h : a.mag = 1) :
    a.magSqr = 1 := by
  have h2 := Real.sq_sqrt a.magSqr_nonneg
  rw [Vec3.mag] at h
  rw [h] at h2
  simpa using h2.symm

lemma safeNormalize_of_mag_one {a : Vec3} (h : a.mag = 1) :
    safeNormalize a = a := by
  rw [safeNormalize, if_neg (by rw [h]; norm_num)]
  rw [h]
  ext <;> simp

/-- Cauchy–Schwarz for `Vec3` via the Lagrange identity. -/
lemma Vec3.dot_sq_le (a b : Vec3) : (a.dot b) ^ 2 ≤ a.magSqr * b.magSqr := by
  unfold Vec3.dot Vec3.magSqr
  nlinarith [sq_nonneg (a.x * b.y - a.y * b.x), sq_nonneg (a.x * b.z - a.z * b.x),
    sq_nonneg (a.y * b.z - a.z * b.y)]

lemma Vec3.abs_dot_le_one {a b : Vec3} (ha : a.mag = 1) (hb : b.mag = 1) :
    -1 ≤ a.dot b ∧ a.dot b ≤ 1 := by
  have h := a.dot_sq_le b
  rw [Vec3.magSqr_eq_one_of_mag_eq_one ha, Vec3.magSqr_eq_one_of_mag_eq_one hb]
    at h
  constructor <;> nlinarith

/-- The clamp of the interpolation parameter at the top of
`Pose::slerpDir` (Pose.hpp 270), `std::max(0, std::min(1, t))`. -/
noncomputable def clamp01 (t : ℝ) : ℝ := max 0 (min 1 t)

/-- The clamped dot product of `Pose::slerpDir` (Pose.hpp 272–273). -/
noncomputable def clampDot (a b : Vec3) : ℝ := max (-1) (min 1 (a.dot b))

/-- The axis choice of the near-antipodal branch (Pose.hpp 282–283). -/
noncomputable def slerpPerp0 (a : Vec3) : Vec3 :=
  if |a.x| < 0.9 then ⟨1, 0, 0⟩ else ⟨0, 1, 0⟩

/-- Model of `Pose::slerpDir` (Pose.hpp 269–295): linear blend when the
directions are nearly parallel, rotation about a perpendicular axis when
nearly antipodal, standard SLERP otherwise. -/
noncomputable def slerpDir (a b : Vec3) (t : ℝ) : Vec3 :=
  if clampDot a b > 0.9995 then
    safeNormalize (a + clamp01 t • (b - a))
  else if clampDot a b < -0.9995 then
    Real.cos (Real.pi * clamp01 t) • a +
      Real.sin (Real.pi * clamp01 t) • (a.cross (slerpPerp0 a)).normalize
  else
    (Real.sin ((1 - clamp01 t) * Real.arccos (clampDot a b)) /
        Real.sin (Real.arccos (clampDot a b))) • a +
      (Real.sin (clamp01 t * Real.arccos (clampDot a b)) /
        Real.sin (Real.arccos (clampDot a b))) • b

lemma clamp01_zero : clamp01 0 = 0 := by
  norm_num [clamp01]

lemma clamp01_one : clamp01 1 = 1 := by
  norm_num [clamp01]

lemma clampDot_eq {a b : Vec3} (ha : a.mag = 1) (hb : b.mag = 1) :
    clampDot a b = a.dot b := by
  obtain ⟨h1, h2⟩ := Vec3.abs_dot_le_one ha hb
  rw [clampDot, min_eq_right h2, max_eq_right h1]

lemma arccos_lt_pi_of {d : ℝ} (h : -1 < d) : Real.arccos d < Real.pi := by
  rw [Real.arccos]
  have := Real.neg_pi_div_two_lt_arcsin.mpr h
  linarith

lemma sin_arccos_pos {d : ℝ} (h1 : -1 < d) (h2 : d < 1) :
    0 < Real.sin (Real.arccos d) :=
  Real.sin_pos_of_pos_of_lt_pi (Real.arccos_pos.mpr h2) (arccos_lt_pi_of h1)

/-- Unit endpoints used by the counterexample: `slerpB` is a unit vector
close to the antipode of `slerpA` but distinct from it. -/
noncomputable def slerpA : Vec3 := ⟨0, 1, 0⟩

/-- See `slerpA`. -/
noncomputable def slerpB : Vec3 := ⟨200 / 10001, -9999 / 10001, 0⟩

/-- Claim C5, counterexample: for the safe-normalised unit endpoints
`slerpA` and `slerpB` (dot = −9999/10001 < −0.9995, near-antipodal
branch), `slerpDir` at u = 1 returns −slerpA = (0,−1,0), which is not
`slerpB` — so the routine does not return b at u = 1 in the
near-antipodal branch. -/
theorem c5_counterexample :
    slerpA.mag = 1 ∧ slerpB.mag = 1 ∧
    slerpDir slerpA slerpB 1 = ⟨0, -1, 0⟩ ∧
    (⟨0, -1, 0⟩ : Vec3) ≠ slerpB := by
  have hA : slerpA.mag = 1 := by
    rw [Vec3.mag, Vec3.magSqr, slerpA]
    norm_num
  have hB : slerpB.mag = 1 := by
    rw [Vec3.mag, Vec3.magSqr, slerpB]
    norm_num
  have hdot : slerpA.dot slerpB = -9999 / 10001 := by
    rw [Vec3.dot, slerpA, slerpB]
    norm_num
  have hclamp : clampDot slerpA slerpB = -9999 / 10001 := by
    rw [clampDot, hdot]
    norm_num
  refine ⟨hA, hB, ?_, ?_⟩
  · rw [slerpDir, hclamp]
    rw [if_neg (by norm_num), if_pos (by norm_num)]
    rw [clamp01_one, mul_one]
    ext <;> simp [Real.cos_pi, Real.sin_pi, slerpA]
  · intro h
    have := congrArg Vec3.y h
    rw [slerpB] at this
    norm_num at this

/-- Claim C5 (amended): for safe-normalised unit endpoints, `slerpDir`
returns a at u = 0 in all three branches; at u = 1 it returns b in the
near-parallel and standard branches (dot ≥ −0.9995), but in the
near-antipodal branch (dot < −0.9995) it returns −a, which coincides
with b exactly when b = −a. -/
theorem c5_slerp_endpoint_identities :
    ∀ a b : Vec3, a.mag = 1 → b.mag = 1 →
      slerpDir a b 0 = a ∧
      (-0.9995 ≤ a.dot b → slerpDir a b 1 = b) ∧
      (a.dot b < -0.9995 → slerpDir a b 1 = -a) := by
  intro a b ha hb
  obtain ⟨hd1, hd2⟩ := Vec3.abs_dot_le_one ha hb
  have hcd := clampDot_eq ha hb
  refine ⟨?_, ?_, ?_⟩
  · rw [slerpDir, hcd]
    by_cases h1 : a.dot b > 0.9995
    · rw [if_pos h1]
      have heq : a + clamp01 0 • (b - a) = a := by
        ext <;> simp [clamp01_zero]
      rw [heq, safeNormalize_of_mag_one ha]
    · rw [if_neg h1]
      by_cases h2 : a.dot b < -0.9995
      · rw [if_pos h2]
        rw [clamp01_zero, mul_zero]
        ext <;> simp [Real.cos_zero, Real.sin_zero]
      · rw [if_neg h2]
        push_neg at h1 h2
        have hsin := sin_arccos_pos (by linarith : (-1 : ℝ) < a.dot b)
          (by linarith : a.dot b < 1)
        rw [clamp01_zero]
        rw [(by norm_num : (1 : ℝ) - 0 = 1), one_mul, zero_mul,
          div_self (ne_of_gt hsin), Real.sin_zero, zero_div]
        ext <;> simp
  · intro hge
    rw [slerpDir, hcd]
    by_cases h1 : a.dot b > 0.9995
    · rw [if_pos h1]
      have heq : a + clamp01 1 • (b - a) = b := by
        ext <;> simp [clamp01_one]
      rw [heq, safeNormalize_of_mag_one hb]
    · rw [if_neg h1, if_neg (by linarith : ¬a.dot b < -0.9995)]
      push_neg at h1
      have hsin := sin_arccos_pos (by linarith : (-1 : ℝ) < a.dot b)
        (by linarith : a.dot b < 1)
      rw [clamp01_one]
      rw [(by norm_num : (1 : ℝ) - 1 = 0), zero_mul, one_mul,
        div_self (ne_of_gt hsin), Real.sin_zero, zero_div]
      ext <;> simp
  · intro hlt
    rw [slerpDir, hcd]
    rw [if_neg (by linarith : ¬a.dot b > 0.9995), if_pos hlt]
    rw [clamp01_one, mul_one]
    ext <;> simp [Real.cos_pi, Real.sin_pi]

/-- Witness for `c5_slerp_endpoint_identities` at concrete orthogonal
unit endpoints: u = 0 gives a and u = 1 gives b. -/
theorem c5_slerp_endpoint_identities_witness :
    slerpDir ⟨0, 1, 0⟩ ⟨1, 0, 0⟩ 0 = ⟨0, 1, 0⟩ ∧
    slerpDir ⟨0, 1, 0⟩ ⟨1, 0, 0⟩ 1 = ⟨1, 0, 0⟩ := by
  have hA : (⟨0, 1, 0⟩ : Vec3).mag = 1 := by
    rw [Vec3.mag, Vec3.magSqr]
    norm_num
  have hB : (⟨1, 0, 0⟩ : Vec3).mag = 1 := by
    rw [Vec3.mag, Vec3.magSqr]
    norm_num
  have h := c5_slerp_endpoint_identities ⟨0, 1, 0⟩ ⟨1, 0, 0⟩ hA hB
  exact ⟨h.1, h.2.1 (by rw [Vec3.dot]; norm_num)⟩

/-! ## Pose: layout-aware elevation reshaping (claim C6) -/

/-- Elevation handling mode (RealtimeTypes.hpp 122–126). -/
inductive ElevationMode : Type
  | Clamp
  | RescaleAtmosUp
  | RescaleFullSphere
deriving DecidableEq, Repr

/-- `std::clamp(v, lo, hi)`. -/
noncomputable def stdClamp (v lo hi : ℝ) : ℝ :=
  if v < lo then lo else if hi < v then hi else v

/-- Model of `Pose::remapClamped` (Pose.hpp 395–401). -/
noncomputable def remapClamped (x inMin inMax outMin outMax : ℝ) : ℝ :=
  if |inMax - inMin| < 1e-12 then outMin
  else outMin + stdClamp ((x - inMin) / (inMax - inMin)) 0 1 * (outMax - outMin)

/-- `std::atan2 y x` over the reals. -/
noncomputable def atan2 (y x : ℝ) : ℝ :=
  if 0 < x then Real.arctan (y / x)
  else if x < 0 ∧ 0 ≤ y then Real.arctan (y / x) + Real.pi
  else if x < 0 ∧ y < 0 then Real.arctan (y / x) - Real.pi
  else if x = 0 ∧ 0 < y then Real.pi / 2
  else if x = 0 ∧ y < 0 then -(Real.pi / 2)
  else 0

/-- Model of `Pose::sanitizeDirForLayout` (Pose.hpp 405–447), with the
layout analysis results (`mLayoutIs2D`, `mLayoutMinElRad`,
`mLayoutMaxElRad`) as parameters: flatten onto the horizontal plane for a
2-D layout, otherwise decompose into azimuth/elevation, reshape the
elevation per mode, and recompose. -/
noncomputable def sanitizeDirForLayout (is2D : Bool) (minEl maxEl : ℝ)
    (mode : ElevationMode) (v : Vec3) : Vec3 :=
  let d := safeNormalize v
  if d.mag < 1e-6 then ⟨0, 1, 0⟩
  else if is2D then safeNormalize ⟨d.x, d.y, 0⟩
  else
    let az := atan2 d.x d.y
    let el := Real.arcsin (stdClamp d.z (-1) 1)
    let el2 :=
      match mode with
      | .Clamp => stdClamp el minEl maxEl
      | .RescaleAtmosUp => remapClamped el 0 (Real.pi / 2) minEl maxEl
      | .RescaleFullSphere =>
        remapClamped el (-(Real.pi / 2)) (Real.pi / 2) minEl maxEl
    safeNormalize ⟨Real.sin az * Real.cos el2, Real.cos az * Real.cos el2,
      Real.sin el2⟩

/-- Elevation of a direction, `asin` of its vertical component (the
spec's reading of a direction's elevation angle). -/
noncomputable def elevation (d : Vec3) : ℝ := Real.arcsin d.z

lemma safeNormalize_mag (v : Vec3) : (safeNormalize v).mag = 1 := by
  rw [safeNormalize]
  by_cases h : v.mag < 1e-6
  · rw [if_pos h, Vec3.mag, Vec3.magSqr]
    norm_num
  · rw [if_neg h]
    push_neg at h
    have hm : 0 < v.mag := lt_of_lt_of_le (by norm_num) h
    have hsq : v.mag ^ 2 = v.magSqr := Real.sq_sqrt v.magSqr_nonneg
    rw [Vec3.mag, Vec3.magSqr]
    have hrw : v.x / v.mag * (v.x / v.mag) + v.y / v.mag * (v.y / v.mag) +
        v.z / v.mag * (v.z / v.mag) = v.magSqr / v.mag ^ 2 := by
      rw [Vec3.magSqr, div_mul_div_comm, div_mul_div_comm, div_mul_div_comm,
        div_add_div_same, div_add_div_same, pow_two]
    rw [hrw, ← hsq, div_self (pow_ne_zero 2 (ne_of_gt hm))]
    exact Real.sqrt_one

lemma safeNormalize_z_zero {v : Vec3} (hz : v.z = 0) :
    (safeNormalize v).z = 0 := by
  rw [safeNormalize]
  by_cases h : v.mag < 1e-6
  · rw [if_pos h]
  · rw [if_neg h]
    simp [hz]

lemma stdClamp_mem {v lo hi : ℝ} (h : lo ≤ hi) :
    lo ≤ stdClamp v lo hi ∧ stdClamp v lo hi ≤ hi := by
  rw [stdClamp]
  split_ifs with h1 h2
  · exact ⟨le_refl lo, h⟩
  · exact ⟨h, le_refl hi⟩
  · constructor <;> linarith

lemma remapClamped_mem {x inMin inMax outMin outMax : ℝ}
    (h : outMin ≤ outMax) :
    outMin ≤ remapClamped x inMin inMax outMin outMax ∧
      remapClamped x inMin inMax outMin outMax ≤ outMax := by
  rw [remapClamped]
  split_ifs with h1
  · exact ⟨le_refl outMin, h⟩
  · obtain ⟨ht0, ht1⟩ := stdClamp_mem
      (v := (x - inMin) / (inMax - inMin)) (by norm_num : (0 : ℝ) ≤ 1)
    constructor <;> nlinarith

lemma recompose_elevation (az el2 minEl maxEl : ℝ) (h1 : minEl ≤ el2)
    (h2 : el2 ≤ maxEl) (hlo : -(Real.pi / 2) ≤ minEl)
    (hhi : maxEl ≤ Real.pi / 2) :
    elevation (safeNormalize ⟨Real.sin az * Real.cos el2,
        Real.cos az * Real.cos el2, Real.sin el2⟩) = el2 := by
  have haz := Real.sin_sq_add_cos_sq az
  have hel := Real.sin_sq_add_cos_sq el2
  have hmag : (⟨Real.sin az * Real.cos el2, Real.cos az * Real.cos el2,
      Real.sin el2⟩ : Vec3).mag = 1 := by
    rw [Vec3.mag, Vec3.magSqr]
    have hone : Real.sin az * Real.cos el2 * (Real.sin az * Real.cos el2) +
        Real.cos az * Real.cos el2 * (Real.cos az * Real.cos el2) +
        Real.sin el2 * Real.sin el2 = 1 := by
      nlinarith [haz, hel]
    rw [hone]
    exact Real.sqrt_one
  rw [safeNormalize_of_mag_one hmag, elevation]
  exact Real.arcsin_sin (by linarith) (by linarith)

/-- Claim C6: for every input direction and every elevation mode, the
reshaped direction has elevation exactly 0 (vertical component 0) when
the layout is 2-D, and elevation within `[min_elevation, max_elevation]`
when the layout is 3-D (with the layout bounds ordered and within
±π/2, as speaker elevations are). -/
theorem c6_elevation_reshaping :
    ∀ (is2D : Bool) (minEl maxEl : ℝ) (mode : ElevationMode) (v : Vec3),
      (is2D = true →
        (sanitizeDirForLayout is2D minEl maxEl mode v).z = 0 ∧
        elevation (sanitizeDirForLayout is2D minEl maxEl mode v) = 0) ∧
      (is2D = false → minEl ≤ maxEl → -(Real.pi / 2) ≤ minEl →
        maxEl ≤ Real.pi / 2 →
        minEl ≤ elevation (sanitizeDirForLayout is2D minEl maxEl mode v) ∧
        elevation (sanitizeDirForLayout is2D minEl maxEl mode v) ≤ maxEl) := by
  intro is2D minEl maxEl mode v
  have hguard : ¬(safeNormalize v).mag < 1e-6 := by
    rw [safeNormalize_mag v]
    norm_num
  constructor
  · rintro rfl
    rw [sanitizeDirForLayout]
    simp only [hguard, if_false, ite_false, if_true, ite_true]
    have hz : (safeNormalize ⟨(safeNormalize v).x, (safeNormalize v).y,
        0⟩).z = 0 := safeNormalize_z_zero rfl
    exact ⟨hz, by rw [elevation, hz, Real.arcsin_zero]⟩
  · rintro rfl hord hlo hhi
    rw [sanitizeDirForLayout]
    simp only [hguard, if_false, ite_false, Bool.false_eq_true]
    cases mode with
    | Clamp =>
      simp only
      obtain ⟨hb1, hb2⟩ := stdClamp_mem
        (v := Real.arcsin (stdClamp (safeNormalize v).z (-1) 1)) hord
      rw [recompose_elevation _ _ minEl maxEl hb1 hb2 hlo hhi]
      exact ⟨hb1, hb2⟩
    | RescaleAtmosUp =>
      simp only
      obtain ⟨hb1, hb2⟩ := @remapClamped_mem
        (Real.arcsin (stdClamp (safeNormalize v).z (-1) 1))
        0 (Real.pi / 2) minEl maxEl hord
      rw [recompose_elevation _ _ minEl maxEl hb1 hb2 hlo hhi]
      exact ⟨hb1, hb2⟩
    | RescaleFullSphere =>
      simp only
      obtain ⟨hb1, hb2⟩ := @remapClamped_mem
        (Real.arcsin (stdClamp (safeNormalize v).z (-1) 1))
        (-(Real.pi / 2)) (Real.pi / 2) minEl maxEl hord
      rw [recompose_elevation _ _ minEl maxEl hb1 hb2 hlo hhi]
      exact ⟨hb1, hb2⟩

/-- Witness for `c6_elevation_reshaping`: a 2-D layout flattens (1,2,3)
to zero elevation, and a 3-D layout with bounds [0, π/6] keeps the
straight-up direction's reshaped elevation within those bounds in
RescaleAtmosUp mode. -/
theorem c6_elevation_reshaping_witness :
    (sanitizeDirForLayout true 0 (Real.pi / 6) ElevationMode.RescaleAtmosUp
      ⟨1, 2, 3⟩).z = 0 ∧
    (0 ≤ elevation (sanitizeDirForLayout false 0 (Real.pi / 6)
        ElevationMode.RescaleAtmosUp ⟨0, 0, 1⟩) ∧
      elevation (sanitizeDirForLayout false 0 (Real.pi / 6)
        ElevationMode.RescaleAtmosUp ⟨0, 0, 1⟩) ≤ Real.pi / 6) := by
  have hpi := Real.pi_pos
  constructor
  · exact ((c6_elevation_reshaping true 0 (Real.pi / 6)
      ElevationMode.RescaleAtmosUp ⟨1, 2, 3⟩).1 rfl).1
  · exact (c6_elevation_reshaping false 0 (Real.pi / 6)
      ElevationMode.RescaleAtmosUp ⟨0, 0, 1⟩).2 rfl
      (by linarith) (by linarith) (by linarith)

end SonoPleth

